import Mathlib

/-!
Verification of the livecue timeline engine (`src/timeline/*.py`).

The Python data model stores element positions in Qt integer spin boxes:
assigning a value first converts the Python number to a C++ `int`
(truncation toward zero for floats) and then Qt clamps the result into the
spin box range `[minimum, maximum]` (`setMinimum`/`setMaximum`; the default
minimum is 0 and the code sets the maximum to `10e6`).  Python arithmetic on
the positions is modelled over `ℚ`; the claims under study are about exact
control flow and assignments, which `ℚ` reproduces.
-/

namespace LiveCue

/-- Python `int(x)` on a rational: truncation toward zero. -/
def truncQ (v : ℚ) : ℤ := if 0 ≤ v then ⌊v⌋ else ⌈v⌉

/-- Python 3 `round(x)` to an integer: round half to even. -/
def pyRound (v : ℚ) : ℤ :=
  if v - ⌊v⌋ < 1 / 2 then ⌊v⌋
  else if 1 / 2 < v - ⌊v⌋ then ⌊v⌋ + 1
  else if ⌊v⌋ % 2 = 0 then ⌊v⌋ else ⌊v⌋ + 1

/-- `QSpinBox.setMaximum(10e6)` used for `_start`, `_length` and `_duration`. -/
def SPIN_MAX : ℤ := 10000000

/-- Clamping done by `QSpinBox.setValue` into `[0, SPIN_MAX]`
(`0` is the Qt default minimum, never changed for these boxes). -/
def spinClamp (n : ℤ) : ℤ := max 0 (min n SPIN_MAX)

/-- `QSpinBox.setValue` on a Python number: float-to-int conversion
(truncation toward zero) followed by the Qt range clamp. -/
def setSpin (v : ℚ) : ℤ := spinClamp (truncQ v)

/-- Clamp into a spin box with custom bounds (`bpm`, `beats_per_bar`, ...). -/
def spinClampIn (lo hi n : ℤ) : ℤ := max lo (min n hi)

/-- `theme.PIXELS_PER_SECOND`.  The attribute is referenced by
`timeline/timeline.py` and `timeline/time.py` but absent from the
`theme.py` under `src/`; the prototype `main.py` defines the constant as
`PIXELS_PER_SECOND = 20`, which we adopt. -/
def PIXELS_PER_SECOND : ℚ := 20

/-- `TimelineElement.MIN_LENGTH` (= `Cue.MIN_LENGTH` = 1). -/
def MIN_LENGTH : ℚ := 1

/-- `Timeline.SNAP_MARKING_PIXELS`. -/
def SNAP_MARKING_PIXELS : ℚ := 240

/-- `Timeline.TIMER_INTERVAL` (milliseconds). -/
def TIMER_INTERVAL : ℚ := 40

/-- The concrete element classes of `timeline/`: `Label`, `LightingCue`,
`SceneCue`, `TimeClock`, `TimeMusic`. -/
inductive ElementKind where
  | label
  | lightingCue
  | sceneCue
  | timeClock
  | timeMusic
deriving DecidableEq, Repr

/-- A timeline element.  `eid` models Python object identity (`==` between
elements in the source is identity because none of them defines `__eq__`).
`start` is the `_start` spin box value; `rawLen` is the `_length` spin box
for `Label`/`LightingCue`/`SceneCue` and the `_duration` spin box for
`TimeClock`/`TimeMusic`.  The remaining fields are the `TimeMusic` spin
boxes (`bpm`, `beats_per_bar`, `starting_beat`, `starting_bar`), the
`Label` text or `SceneCue` name (`text`) and the `SceneCue` color. -/
structure Element where
  eid : ℕ
  kind : ElementKind
  start : ℤ
  rawLen : ℤ
  bpm : ℤ := 100
  beatsPerBar : ℤ := 4
  startingBeat : ℤ := 1
  startingBar : ℤ := 1
  text : String := ""
  color : String := ""
deriving DecidableEq, Repr

/-- `set_start` (`common.py`): `self._start.setValue(value)`. -/
def Element.set_start (e : Element) (v : ℚ) : Element :=
  { e with start := setSpin v }

/-- `get_length` per class:
* base (`common.py` / `cue.py`): `self._length.value()`;
* `TimeClock.get_length` (`time.py`): `int(self.duration * theme.PIXELS_PER_SECOND)`;
* `TimeMusic.get_length` (`time.py`):
  `round(self.duration * 1 / self.bpm * 60 * theme.PIXELS_PER_SECOND)`. -/
def Element.get_length (e : Element) : ℤ :=
  match e.kind with
  | .timeClock => truncQ ((e.rawLen : ℚ) * PIXELS_PER_SECOND)
  | .timeMusic => pyRound ((e.rawLen : ℚ) * 1 / (e.bpm : ℚ) * 60 * PIXELS_PER_SECOND)
  | _ => e.rawLen

/-- `set_length` per class:
* base (`common.py`, identically `cue.py`):
  `self._length.setValue(max(value, self.MIN_LENGTH))`;
* `TimeClock.set_length`:
  `self.duration = max(int(length / theme.PIXELS_PER_SECOND), 1)`;
* `TimeMusic.set_length`:
  `self.duration = max(round(length * self.bpm / 60 / theme.PIXELS_PER_SECOND), 1)`.
The duration assignment goes through the `_duration` spin box
(`set_duration`), hence the trailing `spinClamp`. -/
def Element.set_length (e : Element) (v : ℚ) : Element :=
  match e.kind with
  | .timeClock => { e with rawLen := spinClamp (max (truncQ (v / PIXELS_PER_SECOND)) 1) }
  | .timeMusic =>
      { e with rawLen := spinClamp (max (pyRound (v * (e.bpm : ℚ) / 60 / PIXELS_PER_SECOND)) 1) }
  | _ => { e with rawLen := spinClamp (truncQ (max v MIN_LENGTH)) }

/-- `TimeMusic.get_pixels_per_beat`: `1 / self.bpm * 60 * theme.PIXELS_PER_SECOND`. -/
def Element.pixelsPerBeat (e : Element) : ℚ :=
  1 / (e.bpm : ℚ) * 60 * PIXELS_PER_SECOND

/-- Well-formedness of the stored spin box values: each field lies in its
spin box range, lengths/durations have been written through `set_length`
(hence are at least 1), and `starting_beat` respects the maximum that
`set_beats_per_bar` installs on its spin box. -/
def Element.wf (e : Element) : Prop :=
  0 ≤ e.start ∧ e.start ≤ SPIN_MAX ∧ 1 ≤ e.rawLen ∧ e.rawLen ≤ SPIN_MAX ∧
    1 ≤ e.bpm ∧ e.bpm ≤ 1000 ∧ 1 ≤ e.beatsPerBar ∧ e.beatsPerBar ≤ 100 ∧
    1 ≤ e.startingBeat ∧ e.startingBeat ≤ e.beatsPerBar ∧
    1 ≤ e.startingBar ∧ e.startingBar ≤ 1000

instance (e : Element) : Decidable e.wf := by
  unfold Element.wf; infer_instance

/-! ### Basic facts about the numeric primitives -/

theorem truncQ_of_nonneg {v : ℚ} (h : 0 ≤ v) : truncQ v = ⌊v⌋ := by
  simp [truncQ, h]

theorem one_le_truncQ {v : ℚ} (h : 1 ≤ v) : 1 ≤ truncQ v := by
  rw [truncQ_of_nonneg (le_trans zero_le_one h)]
  exact Int.le_floor.2 (by exact_mod_cast h)

theorem floor_le_pyRound (v : ℚ) : ⌊v⌋ ≤ pyRound v := by
  unfold pyRound
  split
  · exact le_refl _
  · split
    · exact le_of_lt (lt_add_one _)
    · split
      · exact le_refl _
      · exact le_of_lt (lt_add_one _)

theorem one_le_pyRound {v : ℚ} (h : 1 ≤ v) : 1 ≤ pyRound v :=
  le_trans (Int.le_floor.2 (by exact_mod_cast h)) (floor_le_pyRound v)

theorem one_le_spinClamp {n : ℤ} (h : 1 ≤ n) : 1 ≤ spinClamp n := by
  unfold spinClamp SPIN_MAX
  omega

theorem spinClamp_eq_self {n : ℤ} (h0 : 0 ≤ n) (h1 : n ≤ SPIN_MAX) : spinClamp n = n := by
  unfold spinClamp
  omega

theorem setSpin_int {n : ℤ} (h0 : 0 ≤ n) (h1 : n ≤ SPIN_MAX) : setSpin (n : ℚ) = n := by
  unfold setSpin
  rw [truncQ_of_nonneg (by exact_mod_cast h0), Int.floor_intCast]
  exact spinClamp_eq_self h0 h1

/-! ### Ruler markings (`time.py`) -/

/-- Two-digit zero padding used by the f-strings `{i%60:02d}`. -/
def pad2 (n : ℤ) : String :=
  if n < 10 then "0" ++ toString n else toString n

/-- `TimeClock.markings`: one marking per whole second at
`start + i * PIXELS_PER_SECOND`, labeled `minutes:seconds`, followed by a
final marking at the right edge labeled with a single space. -/
def clockMarkings (e : Element) : List (ℚ × String) :=
  ((List.range e.rawLen.toNat).map fun (i : ℕ) =>
    ((e.start : ℚ) + PIXELS_PER_SECOND * (i : ℚ),
      toString ((i : ℤ) / 60) ++ ":" ++ pad2 ((i : ℤ) % 60))) ++
    [((e.start : ℚ) + PIXELS_PER_SECOND * e.rawLen.toNat, " ")]

/-- `TimeMusic.markings`: an initial bar label when `starting_beat != 1`,
one marking per beat (labeled with the bar number on the first beat of each
bar, else with the empty string), and a final space-labeled marking. -/
def musicMarkings (e : Element) : List (ℚ × String) :=
  (if e.startingBeat ≠ 1 then [((e.start : ℚ), toString e.startingBar)] else []) ++
    ((List.range e.rawLen.toNat).map fun (beat : ℕ) =>
      ((e.start : ℚ) + e.pixelsPerBeat * (beat : ℚ),
        if ((beat : ℤ) + e.startingBeat - 1) % e.beatsPerBar = 0 then
          toString (e.startingBar + ((beat : ℤ) + e.startingBeat - 1) / e.beatsPerBar)
        else "")) ++
    [((e.start : ℚ) + e.pixelsPerBeat * e.rawLen.toNat, " ")]

/-- `markings()` dispatched on the element class (only the `Time` variants
define it; it is never called on other elements). -/
def Element.markings (e : Element) : List (ℚ × String) :=
  match e.kind with
  | .timeClock => clockMarkings e
  | .timeMusic => musicMarkings e
  | _ => []

/-! ### Rows (`timeline.py`) -/

/-- The concrete `Row` subclasses. -/
inductive RowKind where
  | labelRow
  | timeRow
  | guideRow
  | lightingRow
  | sceneRow
deriving DecidableEq, Repr

/-- A row: its class, the `SceneRow` name, and the `elements` list (kept
sorted by `start` by `Row.add`/`Row.remove`; `elements_set` is the same
collection, so it is not modelled separately). -/
structure Row where
  kind : RowKind
  name : String := ""
  elements : List Element
deriving DecidableEq, Repr

/-- `ALLOWED_TYPES` per row class. -/
def allowedTypes : RowKind → List ElementKind
  | .labelRow => [.label]
  | .timeRow => [.timeClock, .timeMusic]
  | .guideRow => []
  | .lightingRow => [.lightingCue]
  | .sceneRow => [.sceneCue]

/-- `Row.canContain`: membership of the element class in `ALLOWED_TYPES`
(both the `isinstance` form and the bare-type form reduce to this, since
no listed class is a subclass of another listed class). -/
def Row.canContain (r : Row) (k : ElementKind) : Bool :=
  (allowedTypes r.kind).contains k

/-- `HEIGHT` per row class. -/
def Row.HEIGHT (r : Row) : ℚ :=
  match r.kind with
  | .labelRow => 15
  | .timeRow => 40
  | .guideRow => 20
  | .lightingRow => 40
  | .sceneRow => 60

/-- Comparison used by `sorted(self.elements_set, key=lambda e: e.start)`. -/
def byStart (a b : Element) : Bool := a.start ≤ b.start

/-- `Row.add`: insert into the element set and re-sort by `start`
(ties are broken arbitrarily by the set iteration order in the source;
any stable choice refines it). -/
def Row.addElement (r : Row) (e : Element) : Row :=
  { r with elements := (e :: r.elements.filter fun x => x.eid ≠ e.eid).mergeSort byStart }

/-- `Row.remove`. -/
def Row.removeElement (r : Row) (eid : ℕ) : Row :=
  { r with elements := (r.elements.filter fun x => x.eid ≠ eid).mergeSort byStart }

/-- `Row.contains`: identity membership in `elements_set`. -/
def Row.containsEid (r : Row) (eid : ℕ) : Bool :=
  r.elements.any fun x => x.eid = eid

/-- Base `Row.snaps(exclude_element)`: for every element other than the
excluded one (identity comparison), its `start` and `start + length`. -/
def Row.snapsBase (r : Row) (exclude : Option ℕ) : List ℚ :=
  (r.elements.filter fun e => some e.eid ≠ exclude).flatMap fun e =>
    [(e.start : ℚ), (e.start : ℚ) + (e.get_length : ℚ)]

/-- `TimeRow.snaps(exclude_element, coarse)`: the first statement of the
source body is `super().snaps(exclude_element)`, which merely CREATES the
base generator and never iterates it, so the base start/end snaps are
discarded; only the ruler markings are yielded (all of them, or, when
`coarse`, those whose label string is truthy — note the final marking is
labeled `" "`, which is truthy). -/
def timeRowSnaps (r : Row) (exclude : Option ℕ) (coarse : Bool) : List ℚ :=
  (r.elements.filter fun e => some e.eid ≠ exclude).flatMap fun e =>
    ((e.markings.filter fun m => !coarse || m.2 ≠ "").map Prod.fst)

/-- `snaps` dispatched on the row class (`TimeRow` overrides it). -/
def Row.snapsList (r : Row) (exclude : Option ℕ) : List ℚ :=
  match r.kind with
  | .timeRow => timeRowSnaps r exclude false
  | _ => r.snapsBase exclude

/-! ### The timeline aggregate (`timeline.py`) -/

/-- The `Timeline` state relevant to the claims: `scale`, the row list,
the playhead pair, the derived playing/next collections (Python sets of
objects, modelled as lists with identity given by `eid`), and the
selection (a reference, modelled by `eid`). -/
structure Timeline where
  scale : ℚ
  rows : List Row
  playhead : ℚ := 0
  accurate_playhead : ℚ := 0
  playing_elements : List Element := []
  next_elements : List Element := []
  selected : Option ℕ := none
deriving DecidableEq, Repr

/-- `Timeline.snaps(exclude_element)`: `0`, the playhead, then every row's
`snaps`. -/
def Timeline.snapsList (t : Timeline) (exclude : Option ℕ) : List ℚ :=
  0 :: t.playhead :: t.rows.flatMap fun r => r.snapsList exclude

/-- `Timeline.fineTimeSnaps`: `0`, then the `snaps()` of every `TimeRow`. -/
def Timeline.fineTimeSnapsList (t : Timeline) : List ℚ :=
  0 :: (t.rows.filter fun r => r.kind = .timeRow).flatMap fun r => timeRowSnaps r none false

/-- `Timeline.coarseTimeSnaps`: `0`, then the `snaps(coarse=True)` of every
`TimeRow`. -/
def Timeline.coarseTimeSnapsList (t : Timeline) : List ℚ :=
  0 :: (t.rows.filter fun r => r.kind = .timeRow).flatMap fun r => timeRowSnaps r none true

/-- `Timeline.cueSnaps`: `start` and `start + length` of every element of
every `SceneRow`/`LightingRow`. -/
def Timeline.cueSnapsList (t : Timeline) : List ℚ :=
  (t.rows.filter fun r => r.kind = .sceneRow ∨ r.kind = .lightingRow).flatMap fun r =>
    r.elements.flatMap fun e => [(e.start : ℚ), (e.start : ℚ) + (e.get_length : ℚ)]

/-- The first snap candidate within `SNAP_MARKING_PIXELS` of `p`
(the `for snap in ...: if abs(... - snap) < SNAP_MARKING_PIXELS: ...; break`
pattern). -/
def findSnap (snaps : List ℚ) (p : ℚ) : Option ℚ :=
  snaps.find? fun s => |p - s| < SNAP_MARKING_PIXELS

/-- The state captured by `handleResize(start=True)`:
`resizing_start_pos`, `resizing_old_start`, `resizing_old_length`. -/
structure ResizeCtx where
  startPosX : ℚ
  oldStart : ℤ
  oldLength : ℤ
deriving DecidableEq, Repr

/-- The left-handle snap scan of `handleResize`: on the first snap within
`SNAP_MARKING_PIXELS` of the stored `start`, grow `length` by the
correction and move `start` onto the snap. -/
def resizeLeftSnap (t : Timeline) (c : ResizeCtx) (e1 : Element) : ResizeCtx × Element :=
  match findSnap (t.snapsList (some e1.eid)) (e1.start : ℚ) with
  | some s => (c, (e1.set_length ((e1.get_length : ℚ) + (e1.start : ℚ) - s)).set_start s)
  | none => (c, e1)

/-- The right-handle snap scan of `handleResize`: on the first snap within
`SNAP_MARKING_PIXELS` of `start + length`, set `length` to reach the
snap. -/
def resizeRightSnap (t : Timeline) (c : ResizeCtx) (e1 : Element) : ResizeCtx × Element :=
  match findSnap (t.snapsList (some e1.eid)) ((e1.start : ℚ) + (e1.get_length : ℚ)) with
  | some s => (c, e1.set_length (s - (e1.start : ℚ)))
  | none => (c, e1)

/-- The body of `handleResize` after the `start` capture: choose the
handle by comparing the anchor against the pre-drag midpoint (in screen
space), apply the raw delta through the setters, then snap. -/
def Timeline.handleResizeCore (t : Timeline) (c : ResizeCtx) (e : Element)
    (eventX : ℚ) : ResizeCtx × Element :=
  if c.startPosX < ((c.oldStart : ℚ) + (c.oldLength : ℚ) / 2) * t.scale then
    -- resize left handle
    resizeLeftSnap t c
      ((e.set_start ((c.oldStart : ℚ) + (eventX - c.startPosX) * 1 / t.scale)).set_length
        ((c.oldLength : ℚ) - (eventX - c.startPosX) * 1 / t.scale))
  else
    -- resize right handle
    resizeRightSnap t c
      (e.set_length ((c.oldLength : ℚ) + (eventX - c.startPosX) * 1 / t.scale))

/-- `Timeline.handleResize(event, start, stop)` acting on the resizing
element `e` (the row holds the same object, so the snap scan excludes it by
identity and is otherwise unaffected by the in-place mutation).  The `stop`
parameter is accepted and never read, exactly as in the source body. -/
def Timeline.handleResize (t : Timeline) (ctx : ResizeCtx) (e : Element)
    (eventX : ℚ) (startFlag stopFlag : Bool) : ResizeCtx × Element :=
  t.handleResizeCore
    (if startFlag then ResizeCtx.mk eventX e.start e.get_length else ctx) e eventX

/-- The state captured by `handleMove(start=True)`:
`moving_start_pos`, `moving_old_start`. -/
structure MoveCtx where
  startPosX : ℚ
  oldStart : ℤ
deriving DecidableEq, Repr

/-- Replace the element with identity `eid` by `e` wherever it occurs
(the in-place mutation of the object shared with its row). -/
def Timeline.updateElement (t : Timeline) (e : Element) : Timeline :=
  { t with rows := t.rows.map fun r =>
      { r with elements := r.elements.map fun x => if x.eid = e.eid then e else x } }

/-- `rowsOffsets`: rows paired with their cumulative vertical offsets. -/
def rowsOffsets (rows : List Row) : List (Row × ℚ) :=
  (rows.foldl (fun (acc : List (Row × ℚ) × ℚ) r =>
    ((r, acc.2) :: acc.1, acc.2 + r.HEIGHT)) ([], 0)).1.reverse

/-- The `goal_row` scan of `handleMove`: the first row (by offset order)
with `event.y < y + row.HEIGHT`, as an index. -/
def goalRowIdx (rows : List Row) (eventY : ℚ) : Option ℕ :=
  (rowsOffsets rows).findIdx? fun p => eventY < p.2 + p.1.HEIGHT

/-- The `current_row` scan of `handleMove`: the loop overwrites
`current_row` on every row containing the element, hence the LAST such
row's index. -/
def currentRowIdx (rows : List Row) (eid : ℕ) : Option ℕ :=
  match (rows.reverse.findIdx? fun r => r.containsEid eid) with
  | some j => some (rows.length - 1 - j)
  | none => none

/-- The snap scan of `handleMove`: move `start` onto the first snap within
`SNAP_MARKING_PIXELS` of the stored `start`, if any. -/
def moveSnap (t : Timeline) (e1 : Element) : Element :=
  match findSnap (t.snapsList (some e1.eid)) (e1.start : ℚ) with
  | some s => e1.set_start s
  | none => e1

/-- The row-reassignment scan at the end of `handleMove`: find the row
under the pointer (`goal_row`) and the row holding the element
(`current_row`); when they differ and the target `canContain` the element,
add it there and remove it from its old row. -/
def moveReassign (t1 : Timeline) (e2 : Element) (eventY : ℚ) : Timeline :=
  match goalRowIdx t1.rows eventY, currentRowIdx t1.rows e2.eid with
  | some g, some cur =>
      if g ≠ cur ∧ ((t1.rows.get? g).map fun r => r.canContain e2.kind) = some true then
        { t1 with rows := t1.rows.mapIdx fun i r =>
            if i = g then r.addElement e2
            else if i = cur then r.removeElement e2.eid
            else r }
      else t1
  | _, _ => t1

/-- The body of `handleMove` after the `start` capture. -/
def Timeline.handleMoveCore (t : Timeline) (c : MoveCtx) (em : Element)
    (eventX eventY : ℚ) : MoveCtx × Element × Timeline :=
  (c, moveSnap t (em.set_start ((c.oldStart : ℚ) + (eventX - c.startPosX) * 1 / t.scale)),
    moveReassign
      (t.updateElement
        (moveSnap t (em.set_start ((c.oldStart : ℚ) + (eventX - c.startPosX) * 1 / t.scale))))
      (moveSnap t (em.set_start ((c.oldStart : ℚ) + (eventX - c.startPosX) * 1 / t.scale)))
      eventY)

/-- `Timeline.handleMove(event, start, stop)` acting on the moving element
`em`.  Returns the captured context, the mutated element value, and the
timeline after the in-place mutation and the possible row reassignment.
The `stop` parameter is accepted and never read, as in the source. -/
def Timeline.handleMove (t : Timeline) (ctx : MoveCtx) (em : Element)
    (eventX eventY : ℚ) (startFlag stopFlag : Bool) : MoveCtx × Element × Timeline :=
  t.handleMoveCore (if startFlag then MoveCtx.mk eventX em.start else ctx) em eventX eventY

/-! ### Playhead and playback (`timeline.py`) -/

/-- The inner loop of `updatePlayhead` over one row's (start-sorted)
element list: collect the playing elements, break at the first element
whose `start` exceeds the playhead and record it as the row's next
element. -/
def rowScan (ph : ℚ) : List Element → List Element × Option Element
  | [] => ([], none)
  | e :: rest =>
      if ph < (e.start : ℚ) then ([], some e)
      else
        let p := rowScan ph rest
        (if (e.start : ℚ) ≤ ph ∧ ph < (e.start : ℚ) + (e.get_length : ℚ) then e :: p.1
         else p.1, p.2)

/-- `new_playing` as accumulated by `updatePlayhead`. -/
def Timeline.newPlaying (t : Timeline) : List Element :=
  t.rows.flatMap fun r => (rowScan t.playhead r.elements).1

/-- `new_next` as accumulated by `updatePlayhead`. -/
def Timeline.newNext (t : Timeline) : List Element :=
  t.rows.filterMap fun r => (rowScan t.playhead r.elements).2

/-- The transition callbacks fired by one `updatePlayhead` call. -/
structure PlayheadEvents where
  exits : List Element
  enters : List Element
  enterNexts : List Element
deriving DecidableEq, Repr

/-- `Timeline.updatePlayhead`: recompute the playing/next sets and fire
`exit`/`enter`/`enterNextInRow` on the set differences (Python set
membership is object identity, i.e. `eid`). -/
def Timeline.updatePlayhead (t : Timeline) : Timeline × PlayheadEvents :=
  let np := t.newPlaying
  let nn := t.newNext
  ({ t with playing_elements := np, next_elements := nn },
    ⟨t.playing_elements.filter fun e => !(np.any fun x => x.eid = e.eid),
     np.filter fun e => !(t.playing_elements.any fun x => x.eid = e.eid),
     nn.filter fun e => !(t.next_elements.any fun x => x.eid = e.eid)⟩)

/-- `Timeline.playTimerTick`: advance `accurate_playhead` by
`TIMER_INTERVAL * PIXELS_PER_SECOND / 1000`, truncate into `playhead`
(`int(...)`), then `updatePlayhead`. -/
def Timeline.playTimerTick (t : Timeline) : Timeline × PlayheadEvents :=
  let acc := t.accurate_playhead + TIMER_INTERVAL * PIXELS_PER_SECOND / 1000
  Timeline.updatePlayhead { t with accurate_playhead := acc, playhead := (truncQ acc : ℚ) }

/-- The state after `n` timer ticks. -/
def runTicks (t : Timeline) : ℕ → Timeline
  | 0 => t
  | n + 1 => ((runTicks t n).playTimerTick).1

/-- `Timeline.seekAbsolute`: `self.playhead = self.accurate_playhead = value`
(no truncation), then `updatePlayhead`. -/
def Timeline.seekAbsolute (t : Timeline) (v : ℚ) : Timeline × PlayheadEvents :=
  Timeline.updatePlayhead { t with playhead := v, accurate_playhead := v }

/-- `Timeline.seekRelative`. -/
def Timeline.seekRelative (t : Timeline) (delta : ℚ) : Timeline × PlayheadEvents :=
  t.seekAbsolute (t.accurate_playhead + delta)

/-- The seeking branch of `mouseMoveEvent`:
`self.playhead = self.accurate_playhead = event.position().x() / self.scale`
followed by `updatePlayhead` (no truncation). -/
def Timeline.gutterSeek (t : Timeline) (eventX : ℚ) : Timeline × PlayheadEvents :=
  Timeline.updatePlayhead
    { t with playhead := eventX / t.scale, accurate_playhead := eventX / t.scale }

/-! ### Keyboard seeking (`keyPressEvent`) -/

/-- The `prevSnap` accumulation loop:
`prevSnap = 0; for snap in ...: if snap > prevSnap and snap < accurate: prevSnap = snap`. -/
def foldPrev (snaps : List ℚ) (accurate : ℚ) : ℚ :=
  snaps.foldl (fun ps s => if ps < s ∧ s < accurate then s else ps) 0

/-- The `nextSnap` accumulation loop, started from the hardcoded `10e8`:
`nextSnap = 10e8; for snap in ...: if snap < nextSnap and snap > accurate: nextSnap = snap`. -/
def foldNext (snaps : List ℚ) (accurate : ℚ) : ℚ :=
  snaps.foldl (fun ns s => if s < ns ∧ accurate < s then s else ns) 1000000000

inductive ArrowKey where
  | left
  | right
deriving DecidableEq, Repr

structure Mods where
  shift : Bool
  ctrl : Bool
deriving DecidableEq, Repr

/-- The `Key_Left`/`Key_Right` branches of `keyPressEvent`:
Shift+Ctrl does nothing, Shift alone seeks relatively by one unit, Ctrl
uses the coarse time snaps, no modifier the fine time snaps. -/
def Timeline.arrowKeySeek (t : Timeline) (k : ArrowKey) (m : Mods) : Timeline :=
  match k with
  | .left =>
      if m.shift ∧ m.ctrl then t
      else if m.shift then (t.seekRelative (-1)).1
      else if m.ctrl then (t.seekAbsolute (foldPrev t.coarseTimeSnapsList t.accurate_playhead)).1
      else (t.seekAbsolute (foldPrev t.fineTimeSnapsList t.accurate_playhead)).1
  | .right =>
      if m.shift ∧ m.ctrl then t
      else if m.shift then (t.seekRelative 1).1
      else if m.ctrl then (t.seekAbsolute (foldNext t.coarseTimeSnapsList t.accurate_playhead)).1
      else (t.seekAbsolute (foldNext t.fineTimeSnapsList t.accurate_playhead)).1

/-! ### Adding elements (`Timeline.add`) -/

/-- Element construction `element_type(**kwargs)` with `start` and `length`
keywords: every constructor stores `start` through the `_start` spin box
and `length` through the class `set_length`.  `Label` defaults its text to
"Label"; a `SceneCue` constructed this way would in fact raise `TypeError`
(`name` and `color` are required), which `Timeline.add` never guards
against — the claims below only exercise `add` on inputs that construct
nothing. -/
def mkElement (ty : ElementKind) (newEid : ℕ) (startArg lenArg : ℚ) : Element :=
  (Element.set_length
    (Element.set_start
      { eid := newEid, kind := ty, start := 0, rawLen := 0,
        text := if ty = .label then "Label" else "" } startArg) lenArg)

/-- `Timeline.add(element_type, **kwargs)` with neither `start` nor
`length` given explicitly (the claim's case): scan the rows for the first
one whose `canContain` accepts the type; if none accepts, fall through
with no mutation, no construction, no signal and no selection change
(modelled by the `none` second component).  Otherwise default `start` to
the end of the row's last element and `length` to 1000, construct, add to
the row, emit the update signal and select the new element. -/
def Timeline.add (t : Timeline) (ty : ElementKind) (newEid : ℕ) : Timeline × Option Element :=
  match t.rows.findIdx? fun r => r.canContain ty with
  | none => (t, none)
  | some i =>
      match t.rows.get? i with
      | none => (t, none)  -- unreachable: findIdx? returns an index in range
      | some row =>
          let st := row.elements.foldl (fun a e => max a ((e.start : ℚ) + (e.get_length : ℚ))) 0
          let e := mkElement ty newEid st 1000
          ({ t with
              rows := t.rows.mapIdx fun j r => if j = i then r.addElement e else r,
              selected := some newEid },
            some e)

/-! ### Persistence (`save`/`load`) -/

/-- One element's saved dictionary: the `type` discriminator plus the
class `SAVED_ATTRIBUTES` (`start`/`length` for all; `text` for `Label`;
`bpm`, `beats_per_bar`, `starting_beat`, `starting_bar` for `TimeMusic`;
`SceneCue` inherits the bare base list, so its name and color are NOT
saved). -/
structure ElemDoc where
  type : ElementKind
  start : ℤ
  length : ℤ
  text : Option String := none
  bpm : Option ℤ := none
  beats_per_bar : Option ℤ := none
  starting_beat : Option ℤ := none
  starting_bar : Option ℤ := none
deriving DecidableEq, Repr

/-- `TimelineElement.save` (with each subclass's `SAVED_ATTRIBUTES`). -/
def Element.save (e : Element) : ElemDoc :=
  { type := e.kind, start := e.start, length := e.get_length,
    text := if e.kind = .label then some e.text else none,
    bpm := if e.kind = .timeMusic then some e.bpm else none,
    beats_per_bar := if e.kind = .timeMusic then some e.beatsPerBar else none,
    starting_beat := if e.kind = .timeMusic then some e.startingBeat else none,
    starting_bar := if e.kind = .timeMusic then some e.startingBar else none }

/-- `TimelineElement.load`: `element_type(**kwargs)`.  The `SceneCue`
constructor requires `name` and `color`, which are never saved, so loading
a saved `SceneCue` raises `TypeError` (modelled as `none`).  `TimeMusic`
installs its keyword defaults, clamps each spin box into its range, and
`set_beats_per_bar` lowers the `starting_beat` maximum to `beats_per_bar`,
re-clamping its current value. -/
def Element.load (d : ElemDoc) (newEid : ℕ) : Option Element :=
  match d.type with
  | .sceneCue => none
  | .timeMusic =>
      let bpmv := spinClampIn 1 1000 (d.bpm.getD 100)
      let sb0 := spinClampIn 1 100 (d.starting_beat.getD 1)
      let bpb := spinClampIn 1 100 (d.beats_per_bar.getD 4)
      some (Element.set_length
        (Element.set_start
          { eid := newEid, kind := .timeMusic, start := 0, rawLen := 0,
            bpm := bpmv, beatsPerBar := bpb, startingBeat := min sb0 bpb,
            startingBar := spinClampIn 1 1000 (d.starting_bar.getD 1) }
          (d.start : ℚ)) (d.length : ℚ))
  | k =>
      some (Element.set_length
        (Element.set_start
          { eid := newEid, kind := k, start := 0, rawLen := 0,
            text := if k = .label then (d.text.getD "Label") else "" }
          (d.start : ℚ)) (d.length : ℚ))

/-- One row's saved dictionary: the `type` discriminator, the element
dictionaries in the row's (start-sorted) order, and `name` for `SceneRow`
(the only row class with `SAVED_ATTRIBUTES`). -/
structure RowDoc where
  type : RowKind
  name : Option String := none
  elements : List ElemDoc
deriving DecidableEq, Repr

/-- `Row.save`. -/
def Row.save (r : Row) : RowDoc :=
  { type := r.kind, name := if r.kind = .sceneRow then some r.name else none,
    elements := r.elements.map Element.save }

/-- `Row.load`: reconstruct each element, then call the row class with the
saved keyword arguments.  `SceneRow` requires `name`; the other row
constructors accept no extra keyword (an unexpected one would raise). -/
def Row.load (d : RowDoc) : Option Row := do
  let es ← d.elements.enum.mapM fun p => Element.load p.2 p.1
  match d.type, d.name with
  | .sceneRow, some n => some { kind := .sceneRow, name := n, elements := es }
  | .sceneRow, none => none
  | k, none => some { kind := k, name := "", elements := es }
  | _, some _ => none

/-- The whole saved document: `{"scale": ..., "rows": [...]}`. -/
structure TimelineDoc where
  scale : ℚ
  rows : List RowDoc
deriving DecidableEq, Repr

/-- `Timeline.save`. -/
def Timeline.save (t : Timeline) : TimelineDoc :=
  { scale := t.scale, rows := t.rows.map Row.save }

/-- `Timeline.load`: construct a fresh timeline with the saved scale and
`addRow` each reconstructed row in document order. -/
def Timeline.load (d : TimelineDoc) : Option Timeline := do
  let rs ← d.rows.mapM Row.load
  some { scale := d.scale, rows := rs }

/-! ### Shared helper lemmas -/

theorem one_le_rawLen_set_length (e : Element) (v : ℚ) :
    1 ≤ (e.set_length v).rawLen := by
  unfold Element.set_length
  cases e.kind <;> simp only []
  case timeClock => exact one_le_spinClamp (le_max_right _ _)
  case timeMusic => exact one_le_spinClamp (le_max_right _ _)
  all_goals
    exact one_le_spinClamp (one_le_truncQ (le_max_right _ _))

theorem one_le_get_length (e : Element) (h1 : 1 ≤ e.rawLen)
    (hb1 : 1 ≤ e.bpm) (hb2 : e.bpm ≤ 1000) : 1 ≤ e.get_length := by
  have hr : (1 : ℚ) ≤ (e.rawLen : ℚ) := by exact_mod_cast h1
  unfold Element.get_length
  cases e.kind <;> simp only []
  case timeClock =>
    apply one_le_truncQ
    unfold PIXELS_PER_SECOND
    nlinarith
  case timeMusic =>
    apply one_le_pyRound
    have hbpos : (0 : ℚ) < (e.bpm : ℚ) := by exact_mod_cast hb1
    have hble : (e.bpm : ℚ) ≤ 1000 := by exact_mod_cast hb2
    rw [div_mul_eq_mul_div, div_mul_eq_mul_div, le_div_iff₀ hbpos]
    unfold PIXELS_PER_SECOND
    nlinarith
  all_goals exact h1

theorem set_length_kind (e : Element) (v : ℚ) : (e.set_length v).kind = e.kind := by
  unfold Element.set_length
  cases e.kind <;> rfl

theorem set_length_bpm (e : Element) (v : ℚ) : (e.set_length v).bpm = e.bpm := by
  unfold Element.set_length
  cases e.kind <;> rfl

theorem set_length_start (e : Element) (v : ℚ) : (e.set_length v).start = e.start := by
  unfold Element.set_length
  cases e.kind <;> rfl

theorem set_length_eid (e : Element) (v : ℚ) : (e.set_length v).eid = e.eid := by
  unfold Element.set_length
  cases e.kind <;> rfl

theorem set_start_rawLen (e : Element) (v : ℚ) : (e.set_start v).rawLen = e.rawLen := rfl

theorem set_start_kind (e : Element) (v : ℚ) : (e.set_start v).kind = e.kind := rfl

theorem set_start_bpm (e : Element) (v : ℚ) : (e.set_start v).bpm = e.bpm := rfl

theorem get_length_set_length (e : Element) (v : ℚ)
    (hb1 : 1 ≤ e.bpm) (hb2 : e.bpm ≤ 1000) : 1 ≤ (e.set_length v).get_length := by
  have h1 := one_le_rawLen_set_length e v
  have hb1l : 1 ≤ (e.set_length v).bpm := by rw [set_length_bpm]; exact hb1
  have hb2l : (e.set_length v).bpm ≤ 1000 := by rw [set_length_bpm]; exact hb2
  exact one_le_get_length _ h1 hb1l hb2l

/-! ### C9 -/

/-- C9: every assignment through a `length` setter clamps immediately —
the stored spin box value (`_length`, or the back-computed `_duration` for
the `Time` variants) ends at least 1 after any `set_length` call, and the
resulting observable `length` is at least `MIN_LENGTH`, so a negative or
sub-minimum length is never stored. -/
theorem set_length_clamps_immediately (e : Element) (v : ℚ)
    (hb : 1 ≤ e.bpm ∧ e.bpm ≤ 1000) :
    1 ≤ (e.set_length v).rawLen ∧
      MIN_LENGTH ≤ (((e.set_length v).get_length : ℤ) : ℚ) := by
  refine ⟨one_le_rawLen_set_length e v, ?_⟩
  unfold MIN_LENGTH
  exact_mod_cast get_length_set_length e v hb.1 hb.2

/-- Witness for C9 at a concrete `TimeMusic` element and a negative
requested length. -/
theorem set_length_clamps_immediately_witness :
    (1 ≤ (Element.mk 3 .timeMusic 0 5 1000 4 1 1 "" "").bpm ∧
        (Element.mk 3 .timeMusic 0 5 1000 4 1 1 "" "").bpm ≤ 1000) ∧
      (1 ≤ ((Element.mk 3 .timeMusic 0 5 1000 4 1 1 "" "").set_length (-7)).rawLen ∧
        MIN_LENGTH ≤
          ((((Element.mk 3 .timeMusic 0 5 1000 4 1 1 "" "").set_length (-7)).get_length : ℤ) : ℚ)) :=
  ⟨by decide, set_length_clamps_immediately (Element.mk 3 .timeMusic 0 5 1000 4 1 1 "" "")
    (-7) (by decide)⟩

/-! ### C10 -/

/-- C10: calling `Timeline.add` with an element type that no row
`canContain` leaves the timeline completely unchanged — no element is
constructed, no row's element set mutated, the selection untouched, and no
change notification emitted (the `none` result marks that the loop body,
including the `emit` and `select` calls, never ran). -/
theorem add_without_accepting_row (t : Timeline) (ty : ElementKind) (newEid : ℕ)
    (h : ∀ r ∈ t.rows, r.canContain ty = false) :
    t.add ty newEid = (t, none) := by
  unfold Timeline.add
  rw [List.findIdx?_eq_none_iff.2 h]

/-- Witness for C10: a timeline with a guide row (empty `ALLOWED_TYPES`)
and a time row, to which a `Label` cannot be added. -/
theorem add_without_accepting_row_witness :
    (∀ r ∈ (Timeline.mk (1/20) [Row.mk .guideRow "" [], Row.mk .timeRow "" []] 0 0 [] [] none).rows,
        r.canContain .label = false) ∧
      (Timeline.mk (1/20) [Row.mk .guideRow "" [], Row.mk .timeRow "" []] 0 0 [] [] none).add
          .label 9 =
        (Timeline.mk (1/20) [Row.mk .guideRow "" [], Row.mk .timeRow "" []] 0 0 [] [] none, none) :=
  ⟨by decide,
    add_without_accepting_row
      (Timeline.mk (1/20) [Row.mk .guideRow "" [], Row.mk .timeRow "" []] 0 0 [] [] none)
      .label 9 (by decide)⟩

/-! ### C7 -/

theorem updatePlayhead_playhead (t : Timeline) :
    (t.updatePlayhead).1.playhead = t.playhead := rfl

theorem updatePlayhead_accurate (t : Timeline) :
    (t.updatePlayhead).1.accurate_playhead = t.accurate_playhead := rfl

/-- C7 counterexample: after `seekAbsolute(11/2)` the playhead equals the
fractional value `11/2`, not the truncation of `accurate_playhead`. -/
theorem playhead_not_truncated_on_seek :
    ((Timeline.mk (1/20) [] 0 0 [] [] none).seekAbsolute (11/2)).1.playhead ≠
      ((truncQ ((Timeline.mk (1/20) [] 0 0 [] [] none).seekAbsolute
          (11/2)).1.accurate_playhead : ℤ) : ℚ) := by
  simp only [Timeline.seekAbsolute, updatePlayhead_playhead, updatePlayhead_accurate]
  norm_num [truncQ]

/-- C7 amended: only the playback timer tick truncates — after
`playTimerTick`, `playhead = int(accurate_playhead)`; after a gutter seek,
an absolute seek or a relative seek, `playhead` is assigned the same
(possibly fractional) value as `accurate_playhead`, with no truncation. -/
theorem playhead_truncation_discipline (t : Timeline) (v x : ℚ) :
    (t.playTimerTick).1.playhead =
        ((truncQ (t.playTimerTick).1.accurate_playhead : ℤ) : ℚ) ∧
      (t.seekAbsolute v).1.playhead = v ∧
      (t.seekAbsolute v).1.accurate_playhead = v ∧
      (t.gutterSeek x).1.playhead = x / t.scale ∧
      (t.gutterSeek x).1.accurate_playhead = x / t.scale ∧
      (t.seekRelative v).1.playhead = t.accurate_playhead + v := by
  refine ⟨?_, rfl, rfl, rfl, rfl, rfl⟩
  rfl

/-! ### C1 -/

theorem get_length_set_start (e : Element) (v : ℚ) :
    (e.set_start v).get_length = e.get_length := rfl

/-- The lighting cue of the C1 scenario: `start = 1000`, `length = 10`. -/
def exResizeElem : Element :=
  { eid := 1, kind := .lightingCue, start := 1000, rawLen := 10 }

/-- A timeline at scale 1 holding only that cue. -/
def exResizeT : Timeline :=
  { scale := 1, rows := [{ kind := .lightingRow, elements := [exResizeElem] }] }

/-- Mouse press on the left resize handle at screen x = 1000. -/
def exResizeStep1 : ResizeCtx × Element :=
  exResizeT.handleResize (ResizeCtx.mk 0 0 0) exResizeElem 1000 true false

/-- Drag to screen x = 1020 (20 timeline units to the right, past the whole
10-unit length). -/
def exResizeStep2 : ResizeCtx × Element :=
  exResizeT.handleResize exResizeStep1.1 exResizeStep1.2 1020 false false

/-- Release at screen x = 1020 (`handleResize(event, stop=True)`). -/
def exResizeStep3 : ResizeCtx × Element :=
  exResizeT.handleResize exResizeStep2.1 exResizeStep2.2 1020 false true

theorem exResizeT_snaps : exResizeT.snapsList (some 1) = [0, 0] := by
  simp [exResizeT, exResizeElem, Timeline.snapsList, Row.snapsList, Row.snapsBase]

theorem resizeLeftSnap_of_none (t : Timeline) (c : ResizeCtx) (e1 : Element)
    (h : findSnap (t.snapsList (some e1.eid)) (e1.start : ℚ) = none) :
    resizeLeftSnap t c e1 = (c, e1) := by
  unfold resizeLeftSnap
  rw [h]

theorem moveSnap_of_none (t : Timeline) (e1 : Element)
    (h : findSnap (t.snapsList (some e1.eid)) (e1.start : ℚ) = none) :
    moveSnap t e1 = e1 := by
  unfold moveSnap
  rw [h]

theorem moveSnap_of_some (t : Timeline) (e1 : Element) (s : ℚ)
    (h : findSnap (t.snapsList (some e1.eid)) (e1.start : ℚ) = some s) :
    moveSnap t e1 = e1.set_start s := by
  unfold moveSnap
  rw [h]

theorem exResizeStep1_eq : exResizeStep1 = (ResizeCtx.mk 1000 1000 10, exResizeElem) := by
  rw [exResizeStep1]
  show exResizeT.handleResizeCore (ResizeCtx.mk 1000 1000 10) exResizeElem 1000 = _
  rw [Timeline.handleResizeCore]
  rw [if_pos (by norm_num [exResizeT])]
  have he : (exResizeElem.set_start ((((1000 : ℤ) : ℚ)) + ((1000 : ℚ) - 1000) * 1 / exResizeT.scale)).set_length
      (((10 : ℤ) : ℚ) - ((1000 : ℚ) - 1000) * 1 / exResizeT.scale) = exResizeElem := by
    norm_num [exResizeElem, exResizeT, Element.set_start, Element.set_length,
      setSpin, truncQ, spinClamp, SPIN_MAX, MIN_LENGTH]
  rw [he]
  exact resizeLeftSnap_of_none _ _ _ (by
    rw [show exResizeElem.eid = 1 from rfl, exResizeT_snaps]
    norm_num [findSnap, List.find?, SNAP_MARKING_PIXELS, exResizeElem])

/-- The element value after the drag: `start = 1020`, stored length 1. -/
def exResizeElem2 : Element :=
  { eid := 1, kind := .lightingCue, start := 1020, rawLen := 1 }

theorem exResizeStep2_eq : exResizeStep2 = (ResizeCtx.mk 1000 1000 10, exResizeElem2) := by
  rw [exResizeStep2, exResizeStep1_eq]
  show exResizeT.handleResizeCore (ResizeCtx.mk 1000 1000 10) exResizeElem 1020 = _
  rw [Timeline.handleResizeCore]
  rw [if_pos (by norm_num [exResizeT])]
  have he : (exResizeElem.set_start ((((1000 : ℤ) : ℚ)) + ((1020 : ℚ) - 1000) * 1 / exResizeT.scale)).set_length
      (((10 : ℤ) : ℚ) - ((1020 : ℚ) - 1000) * 1 / exResizeT.scale) = exResizeElem2 := by
    norm_num [exResizeElem, exResizeElem2, exResizeT, Element.set_start, Element.set_length,
      setSpin, truncQ, spinClamp, SPIN_MAX, MIN_LENGTH]
  rw [he]
  exact resizeLeftSnap_of_none _ _ _ (by
    rw [show exResizeElem2.eid = 1 from rfl, exResizeT_snaps]
    norm_num [findSnap, List.find?, SNAP_MARKING_PIXELS, exResizeElem2])

theorem exResizeStep3_eq : exResizeStep3 = (ResizeCtx.mk 1000 1000 10, exResizeElem2) := by
  rw [exResizeStep3, exResizeStep2_eq]
  show exResizeT.handleResizeCore (ResizeCtx.mk 1000 1000 10) exResizeElem2 1020 = _
  rw [Timeline.handleResizeCore]
  rw [if_pos (by norm_num [exResizeT])]
  have he : (exResizeElem2.set_start ((((1000 : ℤ) : ℚ)) + ((1020 : ℚ) - 1000) * 1 / exResizeT.scale)).set_length
      (((10 : ℤ) : ℚ) - ((1020 : ℚ) - 1000) * 1 / exResizeT.scale) = exResizeElem2 := by
    norm_num [exResizeElem2, exResizeT, Element.set_start, Element.set_length,
      setSpin, truncQ, spinClamp, SPIN_MAX, MIN_LENGTH]
  rw [he]
  exact resizeLeftSnap_of_none _ _ _ (by
    rw [show exResizeElem2.eid = 1 from rfl, exResizeT_snaps]
    norm_num [findSnap, List.find?, SNAP_MARKING_PIXELS, exResizeElem2])

/-- C1 counterexample: dragging the left handle of a `[1000, 1010]` cue to
screen x = 1020 (raw new geometry `start = 1020`, `length = -10`).  Already
MID-DRAG the stored length is clamped to `MIN_LENGTH = 1` (so the clamp is
not deferred to resize-completion), and the pointer-up commit keeps
`(start, length) = (1020, 1)` — the claimed flip-and-shift outcome
`(1010, 10)` does not happen. -/
theorem resize_commit_cex :
    exResizeStep2.2.get_length = 1 ∧
      exResizeStep3.2.start = 1020 ∧ exResizeStep3.2.get_length = 1 ∧
      ¬(exResizeStep3.2.start = 1010 ∧ exResizeStep3.2.get_length = 10) := by
  rw [exResizeStep2_eq, exResizeStep3_eq]
  refine ⟨rfl, rfl, rfl, ?_⟩
  intro h
  exact absurd h.1 (by decide)

theorem one_le_len_resizeLeftSnap (t : Timeline) (c : ResizeCtx) (e1 : Element)
    (hb1 : 1 ≤ e1.bpm) (hb2 : e1.bpm ≤ 1000) (hl : 1 ≤ e1.get_length) :
    1 ≤ (resizeLeftSnap t c e1).2.get_length := by
  unfold resizeLeftSnap
  split
  · rw [get_length_set_start]
    exact get_length_set_length e1 _ hb1 hb2
  · exact hl

theorem one_le_len_resizeRightSnap (t : Timeline) (c : ResizeCtx) (e1 : Element)
    (hb1 : 1 ≤ e1.bpm) (hb2 : e1.bpm ≤ 1000) (hl : 1 ≤ e1.get_length) :
    1 ≤ (resizeRightSnap t c e1).2.get_length := by
  unfold resizeRightSnap
  split
  · exact get_length_set_length e1 _ hb1 hb2
  · exact hl

theorem one_le_len_handleResizeCore (t : Timeline) (c : ResizeCtx) (e : Element)
    (x : ℚ) (hb1 : 1 ≤ e.bpm) (hb2 : e.bpm ≤ 1000) :
    1 ≤ (t.handleResizeCore c e x).2.get_length := by
  unfold Timeline.handleResizeCore
  split
  · apply one_le_len_resizeLeftSnap
    · rw [set_length_bpm, set_start_bpm]; exact hb1
    · rw [set_length_bpm, set_start_bpm]; exact hb2
    · apply get_length_set_length
      · rw [set_start_bpm]; exact hb1
      · rw [set_start_bpm]; exact hb2
  · apply one_le_len_resizeRightSnap
    · rw [set_length_bpm]; exact hb1
    · rw [set_length_bpm]; exact hb2
    · exact get_length_set_length e _ hb1 hb2

/-- C1 amended: `handleResize` accepts but never reads its `stop` flag, so
pointer-up merely recomputes the drag geometry at the release position —
there is no sign flip and no start shift; and the committed length can
never be negative or below `MIN_LENGTH` because every `length` assignment
is clamped immediately by the setter, during the interactive drag as much
as at completion. -/
theorem resize_commit_amended (t : Timeline) (ctx : ResizeCtx) (e : Element)
    (x : ℚ) (sf a b : Bool) (hb : 1 ≤ e.bpm ∧ e.bpm ≤ 1000) :
    t.handleResize ctx e x sf a = t.handleResize ctx e x sf b ∧
      1 ≤ (t.handleResize ctx e x sf a).2.get_length := by
  refine ⟨rfl, ?_⟩
  unfold Timeline.handleResize
  exact one_le_len_handleResizeCore t _ e x hb.1 hb.2

/-! ### C2 -/

/-- A `TimeMusic` element at `start = 0` with one beat at 7 bpm: its beat
markings sit at `0` and `1200/7`, while `start + length = 171`. -/
def exMusic : Element :=
  { eid := 2, kind := .timeMusic, start := 0, rawLen := 1, bpm := 7 }

/-- A timeline with a single time row holding `exMusic`. -/
def exT2 : Timeline :=
  { scale := 1, rows := [{ kind := .timeRow, elements := [exMusic] }] }

theorem exMusic_len : exMusic.get_length = 171 := by
  norm_num [exMusic, Element.get_length, pyRound, PIXELS_PER_SECOND]

theorem exT2_snaps : exT2.snapsList none = [0, 0, 0, 1200/7] := by
  simp [exT2, exMusic, Timeline.snapsList, Row.snapsList, timeRowSnaps,
    Element.markings, musicMarkings, Element.pixelsPerBeat, PIXELS_PER_SECOND]
  norm_num [List.range_succ, List.range_zero]

/-- C2, evaluated at the failing input: `TimeRow.snaps` calls the base
`Row.snaps` generator without iterating it (a dead statement), so the
element edge `start + length = 171` that the base implementation would
yield — and that the claim promises for every row — is absent from
`Timeline.snaps`; only the ruler markings `0` and `1200/7` (plus the
global `0` and the playhead) are produced. -/
theorem time_row_snaps_drop_element_edges :
    (exMusic.start : ℚ) + (exMusic.get_length : ℚ) ∈
        (Row.mk .timeRow "" [exMusic]).snapsBase none ∧
      (exMusic.start : ℚ) + (exMusic.get_length : ℚ) ∉ exT2.snapsList none := by
  rw [exMusic_len, exT2_snaps]
  constructor
  · simp [Row.snapsBase, exMusic_len, show exMusic.start = 0 from rfl]
  · simp only [show (exMusic.start : ℚ) = 0 from rfl]
    norm_num

/-! ### C3 -/

/-- The stationary lighting cue of the C3 scenario: `[1000, 1010]`. -/
def exMoveElem1 : Element :=
  { eid := 10, kind := .lightingCue, start := 1000, rawLen := 10 }

/-- The dragged lighting cue of the C3 scenario, at `start = 1200`. -/
def exMoveElem2 : Element :=
  { eid := 11, kind := .lightingCue, start := 1200, rawLen := 10 }

/-- A timeline at scale 4 with both cues in one lighting row and the
playhead parked at 5000. -/
def exMoveT : Timeline :=
  { scale := 4, rows := [{ kind := .lightingRow, elements := [exMoveElem1, exMoveElem2] }],
    playhead := 5000, accurate_playhead := 5000 }

/-- The raw (unsnapped) element produced by the first two statements of
`handleMove`: `start` is set to `moving_old_start + delta` through the
integer spin box. -/
def unsnappedMoveStart (t : Timeline) (c : MoveCtx) (em : Element) (eventX : ℚ) : Element :=
  em.set_start ((c.oldStart : ℚ) + (eventX - c.startPosX) * 1 / t.scale)

theorem exMoveT_snaps : exMoveT.snapsList (some 11) = [0, 5000, 1000, 1010] := by
  simp [exMoveT, exMoveElem1, exMoveElem2, Timeline.snapsList, Row.snapsList,
    Row.snapsBase, Element.get_length]
  norm_num

theorem exMove_unsnapped :
    unsnappedMoveStart exMoveT (MoveCtx.mk 4800 1200) exMoveElem2 4800 = exMoveElem2 := by
  norm_num [unsnappedMoveStart, exMoveT, exMoveElem2, Element.set_start,
    setSpin, truncQ, spinClamp, SPIN_MAX]

/-- C3 counterexample: with `scale = 4`, dragging the cue at 1200 with a
zero pointer delta leaves every snap candidate at screen distance at least
`|1200-1000| * 4 = 800 >= 240`, so by the claim the unsnapped position 1200
is kept; the code, which compares timeline-space distances against
`SNAP_MARKING_PIXELS` without multiplying by the scale, instead commits
the element to the candidate 1000. -/
theorem move_snap_scale_cex :
    (∀ s ∈ exMoveT.snapsList (some 11),
        ¬ |(1200 : ℚ) - s| * exMoveT.scale < SNAP_MARKING_PIXELS) ∧
      (exMoveT.handleMove (MoveCtx.mk 4800 1200) exMoveElem2 4800 10 false false).2.1.start =
          1000 ∧
      (1000 : ℤ) ≠ 1200 := by
  refine ⟨?_, ?_, by decide⟩
  · rw [exMoveT_snaps]
    intro s hs
    fin_cases hs <;> norm_num [exMoveT, SNAP_MARKING_PIXELS]
  · show (moveSnap exMoveT
        (unsnappedMoveStart exMoveT (MoveCtx.mk 4800 1200) exMoveElem2 4800)).start = 1000
    rw [exMove_unsnapped]
    rw [moveSnap_of_some exMoveT exMoveElem2 1000 ?_]
    · norm_num [Element.set_start, setSpin, truncQ, spinClamp, SPIN_MAX]
    · rw [show exMoveElem2.eid = 11 from rfl, exMoveT_snaps]
      norm_num [findSnap, List.find?, SNAP_MARKING_PIXELS, exMoveElem2]

theorem find?_of_prefix {α : Type} (p : α → Bool) (pre post : List α) (a : α)
    (h1 : ∀ x ∈ pre, p x = false) (h2 : p a = true) :
    (pre ++ a :: post).find? p = some a := by
  induction pre with
  | nil => simp [List.find?_cons_of_pos, h2]
  | cons b l ih =>
      rw [List.cons_append, List.find?_cons_of_neg _ (by simp [h1 b (by simp)])]
      exact ih fun x hx => h1 x (by simp [hx])

/-- C3 amended: the snap scan of a drag compares TIMELINE-SPACE distances
(no multiplication by the scale) against `SNAP_MARKING_PIXELS`.  If no
candidate is within that distance of the stored unsnapped position, the
unsnapped position is kept; otherwise the element's `start` is assigned
the first such candidate in iteration order, which lands exactly on the
candidate whenever it is a whole number within the spin box range (a
fractional candidate is truncated by the integer spin box). -/
theorem move_snap_amended (t : Timeline) (c : MoveCtx) (em : Element)
    (x y : ℚ) (stf : Bool) :
    ((∀ s ∈ t.snapsList (some em.eid),
        ¬ |((unsnappedMoveStart t c em x).start : ℚ) - s| < SNAP_MARKING_PIXELS) →
      (t.handleMove c em x y false stf).2.1 = unsnappedMoveStart t c em x) ∧
    (∀ pre s post,
        t.snapsList (some em.eid) = pre ++ s :: post →
        (∀ p ∈ pre, ¬ |((unsnappedMoveStart t c em x).start : ℚ) - p| < SNAP_MARKING_PIXELS) →
        |((unsnappedMoveStart t c em x).start : ℚ) - s| < SNAP_MARKING_PIXELS →
        (t.handleMove c em x y false stf).2.1 = (unsnappedMoveStart t c em x).set_start s ∧
          ∀ n : ℤ, (n : ℚ) = s → 0 ≤ n → n ≤ SPIN_MAX →
            ((t.handleMove c em x y false stf).2.1).start = n) := by
  have hmov : (t.handleMove c em x y false stf).2.1 =
      moveSnap t (unsnappedMoveStart t c em x) := rfl
  have heid : (unsnappedMoveStart t c em x).eid = em.eid := rfl
  constructor
  · intro hnone
    rw [hmov]
    apply moveSnap_of_none
    rw [heid]
    unfold findSnap
    rw [List.find?_eq_none]
    intro s hs
    simpa using hnone s hs
  · intro pre s post hsplit hpre hs
    have hfind : findSnap (t.snapsList (some (unsnappedMoveStart t c em x).eid))
        ((unsnappedMoveStart t c em x).start : ℚ) = some s := by
      rw [heid, hsplit]
      unfold findSnap
      apply find?_of_prefix
      · intro p hp
        simpa using hpre p hp
      · simpa using hs
    constructor
    · rw [hmov]
      exact moveSnap_of_some _ _ _ hfind
    · intro n hn h0 hm
      rw [hmov, moveSnap_of_some _ _ _ hfind, ← hn]
      show setSpin (n : ℚ) = n
      exact setSpin_int h0 hm

/-- Witness for the amended C3 theorem: at the concrete scenario the snap
candidates split as `[0, 5000] ++ 1000 :: [1010]`, the prefix is out of
range, 1000 is within range, and the committed start is exactly 1000. -/
theorem move_snap_amended_witness :
    (exMoveT.snapsList (some exMoveElem2.eid) = [0, 5000] ++ 1000 :: [1010]) ∧
      ((exMoveT.handleMove (MoveCtx.mk 4800 1200) exMoveElem2 4800 10 false false).2.1 =
          (unsnappedMoveStart exMoveT (MoveCtx.mk 4800 1200) exMoveElem2 4800).set_start 1000 ∧
        ((exMoveT.handleMove (MoveCtx.mk 4800 1200) exMoveElem2 4800 10 false false).2.1).start =
          1000) := by
  have hsp : exMoveT.snapsList (some exMoveElem2.eid) = [0, 5000] ++ 1000 :: [1010] := by
    rw [show exMoveElem2.eid = 11 from rfl, exMoveT_snaps]
    rfl
  have hpre : ∀ p ∈ [(0 : ℚ), 5000],
      ¬ |((unsnappedMoveStart exMoveT (MoveCtx.mk 4800 1200) exMoveElem2 4800).start : ℚ) - p| <
        SNAP_MARKING_PIXELS := by
    rw [exMove_unsnapped]
    intro p hp
    fin_cases hp <;> norm_num [exMoveElem2, SNAP_MARKING_PIXELS]
  have hin : |((unsnappedMoveStart exMoveT (MoveCtx.mk 4800 1200) exMoveElem2 4800).start : ℚ) -
      1000| < SNAP_MARKING_PIXELS := by
    rw [exMove_unsnapped]
    norm_num [exMoveElem2, SNAP_MARKING_PIXELS]
  have h2 := (move_snap_amended exMoveT (MoveCtx.mk 4800 1200) exMoveElem2 4800 10 false).2
    [0, 5000] 1000 [1010] hsp hpre hin
  exact ⟨hsp, h2.1, h2.2 1000 (by norm_num) (by norm_num) (by norm_num [SPIN_MAX])⟩

/-- Witness for the amended C1 theorem at the concrete scenario inputs. -/
theorem resize_commit_amended_witness :
    (1 ≤ exResizeElem.bpm ∧ exResizeElem.bpm ≤ 1000) ∧
      (exResizeT.handleResize (ResizeCtx.mk 50 1000 10) exResizeElem 51 false true =
          exResizeT.handleResize (ResizeCtx.mk 50 1000 10) exResizeElem 51 false false ∧
        1 ≤ (exResizeT.handleResize (ResizeCtx.mk 50 1000 10) exResizeElem
            51 false true).2.get_length) :=
  ⟨by decide,
    resize_commit_amended exResizeT (ResizeCtx.mk 50 1000 10) exResizeElem 51 false true false
      (by decide)⟩

/-! ### C5 -/

/-- A scene cue with a name and a color (fields the persistence layer
never writes). -/
def exSceneCue : Element :=
  { eid := 20, kind := .sceneCue, start := 0, rawLen := 10, text := "CAMERA 1", color := "#cc241d" }

/-- A populated timeline holding one scene row with that cue. -/
def exT5 : Timeline :=
  { scale := 1/20, rows := [{ kind := .sceneRow, name := "Projector", elements := [exSceneCue] }] }

/-- C5, evaluated at the failing input: saving a timeline containing a
`SceneCue` and loading the document back fails (`SceneCue.__init__`
requires `name` and `color`, but `SceneCue` inherits the base
`SAVED_ATTRIBUTES = ["start", "length"]`, so neither is in the saved
dictionary and `element_type(**kwargs)` raises `TypeError`): the
round-trip `load(save(T)) == T` is impossible for this populated
timeline. -/
theorem scene_cue_round_trip_fails :
    Timeline.load (Timeline.save exT5) = none ∧ Timeline.save exT5 ≠ Timeline.save
      { exT5 with rows := [] } := by
  constructor
  · rfl
  · intro h
    have : (Timeline.save exT5).rows.length = 0 := by rw [h]; rfl
    simp [Timeline.save, exT5] at this

/-! ### C8 -/

/-- `foldPrev` computes the largest snap strictly below `accurate` (with
floor 0): the result is 0 or a qualifying snap, and it dominates every
qualifying snap. -/
theorem foldPrev_spec (l : List ℚ) (accurate : ℚ) :
    (foldPrev l accurate = 0 ∨
        (foldPrev l accurate ∈ l ∧ foldPrev l accurate < accurate)) ∧
      ∀ s ∈ l, s < accurate → s ≤ foldPrev l accurate := by
  have main : ∀ (l : List ℚ) (init : ℚ),
      (l.foldl (fun ps s => if ps < s ∧ s < accurate then s else ps) init = init ∨
        (l.foldl (fun ps s => if ps < s ∧ s < accurate then s else ps) init ∈ l ∧
          l.foldl (fun ps s => if ps < s ∧ s < accurate then s else ps) init < accurate)) ∧
      init ≤ l.foldl (fun ps s => if ps < s ∧ s < accurate then s else ps) init ∧
      ∀ s ∈ l, s < accurate → s ≤ l.foldl (fun ps s => if ps < s ∧ s < accurate then s else ps) init := by
    intro l
    induction l with
    | nil => exact fun init => ⟨Or.inl rfl, le_refl _, by simp⟩
    | cons a l ih =>
        intro init
        obtain ⟨ih1, ih2, ih3⟩ := ih (if init < a ∧ a < accurate then a else init)
        rw [List.foldl_cons]
        refine ⟨?_, ?_, ?_⟩
        · rcases ih1 with h | h
          · rw [h]
            split
            · exact Or.inr ⟨by simp, by tauto⟩
            · exact Or.inl rfl
          · exact Or.inr ⟨List.mem_cons_of_mem _ h.1, h.2⟩
        · refine le_trans ?_ ih2
          split
          · exact le_of_lt (by tauto)
          · exact le_refl _
        · intro s hs hslt
          rcases List.mem_cons.1 hs with rfl | hmem
          · refine le_trans ?_ ih2
            by_cases hlt : init < s
            · simp [hlt, hslt]
            · simp only [hslt, and_true]
              split
              · exact le_refl _
              · exact le_of_not_lt hlt
          · exact ih3 s hmem hslt
  obtain ⟨h1, _, h3⟩ := main l 0
  exact ⟨h1, h3⟩

/-- `foldNext` computes the smallest snap strictly above `accurate` (with
the hardcoded ceiling `10e8`): the result is `10^9` or a qualifying snap,
and it is below every qualifying snap. -/
theorem foldNext_spec (l : List ℚ) (accurate : ℚ) :
    (foldNext l accurate = 1000000000 ∨
        (foldNext l accurate ∈ l ∧ accurate < foldNext l accurate)) ∧
      ∀ s ∈ l, accurate < s → foldNext l accurate ≤ s := by
  have main : ∀ (l : List ℚ) (init : ℚ),
      (l.foldl (fun ns s => if s < ns ∧ accurate < s then s else ns) init = init ∨
        (l.foldl (fun ns s => if s < ns ∧ accurate < s then s else ns) init ∈ l ∧
          accurate < l.foldl (fun ns s => if s < ns ∧ accurate < s then s else ns) init)) ∧
      l.foldl (fun ns s => if s < ns ∧ accurate < s then s else ns) init ≤ init ∧
      ∀ s ∈ l, accurate < s → l.foldl (fun ns s => if s < ns ∧ accurate < s then s else ns) init ≤ s := by
    intro l
    induction l with
    | nil => exact fun init => ⟨Or.inl rfl, le_refl _, by simp⟩
    | cons a l ih =>
        intro init
        obtain ⟨ih1, ih2, ih3⟩ := ih (if a < init ∧ accurate < a then a else init)
        rw [List.foldl_cons]
        refine ⟨?_, ?_, ?_⟩
        · rcases ih1 with h | h
          · rw [h]
            split
            · exact Or.inr ⟨by simp, by tauto⟩
            · exact Or.inl rfl
          · exact Or.inr ⟨List.mem_cons_of_mem _ h.1, h.2⟩
        · refine le_trans ih2 ?_
          split
          · exact le_of_lt (by tauto)
          · exact le_refl _
        · intro s hs hslt
          rcases List.mem_cons.1 hs with rfl | hmem
          · refine le_trans ih2 ?_
            by_cases hlt : s < init
            · simp [hlt, hslt]
            · simp only [hslt, and_true]
              split
              · exact le_refl _
              · exact le_of_not_lt hlt
          · exact ih3 s hmem hslt
  obtain ⟨h1, _, h3⟩ := main l 1000000000
  exact ⟨h1, h3⟩

/-- C8 counterexample: after seven playback ticks the playhead is the
truncation 5 of `accurate_playhead = 28/5`; Shift+Right then seeks to
`28/5 + 1 = 33/5`, so the playhead moves by `8/5`, not by exactly one
unit. -/
theorem shift_seek_moves_relative_to_accurate :
    (runTicks (Timeline.mk (1/20) [] 0 0 [] [] none) 7).playhead = 5 ∧
      ((runTicks (Timeline.mk (1/20) [] 0 0 [] [] none) 7).arrowKeySeek .right
            (Mods.mk true false)).playhead -
          (runTicks (Timeline.mk (1/20) [] 0 0 [] [] none) 7).playhead ≠ 1 := by
  have h7 : runTicks (Timeline.mk (1/20) [] 0 0 [] [] none) 7 =
      Timeline.mk (1/20) [] 5 (28/5) [] [] none := by
    norm_num [runTicks, Timeline.playTimerTick, Timeline.updatePlayhead,
      Timeline.newPlaying, Timeline.newNext, truncQ, TIMER_INTERVAL, PIXELS_PER_SECOND]
  rw [h7]
  constructor
  · rfl
  · show (28 / 5 : ℚ) + 1 - 5 ≠ 1
    norm_num

/-- C8 amended: the arrow-key seeks compare against `accurate_playhead`
(not the truncated `playhead`).  Shift moves `accurate_playhead` by
exactly ±1 (so the visible playhead can move by more when it had been
truncated); without modifiers, Right seeks to the smallest fine time-snap
strictly above `accurate_playhead` (falling back to the hardcoded `10e8`
when none qualifies below it) and Left to the largest fine time-snap
strictly below it (falling back to 0); with Ctrl the same holds over the
coarse time-snaps. -/
theorem arrow_key_seek_amended (t : Timeline) :
    ((t.arrowKeySeek .right (Mods.mk true false)).playhead = t.accurate_playhead + 1 ∧
      (t.arrowKeySeek .left (Mods.mk true false)).playhead = t.accurate_playhead - 1) ∧
    (((t.arrowKeySeek .right (Mods.mk false false)).playhead = 1000000000 ∨
        ((t.arrowKeySeek .right (Mods.mk false false)).playhead ∈ t.fineTimeSnapsList ∧
          t.accurate_playhead < (t.arrowKeySeek .right (Mods.mk false false)).playhead)) ∧
      ∀ s ∈ t.fineTimeSnapsList, t.accurate_playhead < s →
        (t.arrowKeySeek .right (Mods.mk false false)).playhead ≤ s) ∧
    (((t.arrowKeySeek .left (Mods.mk false false)).playhead = 0 ∨
        ((t.arrowKeySeek .left (Mods.mk false false)).playhead ∈ t.fineTimeSnapsList ∧
          (t.arrowKeySeek .left (Mods.mk false false)).playhead < t.accurate_playhead)) ∧
      ∀ s ∈ t.fineTimeSnapsList, s < t.accurate_playhead →
        s ≤ (t.arrowKeySeek .left (Mods.mk false false)).playhead) ∧
    (((t.arrowKeySeek .right (Mods.mk false true)).playhead = 1000000000 ∨
        ((t.arrowKeySeek .right (Mods.mk false true)).playhead ∈ t.coarseTimeSnapsList ∧
          t.accurate_playhead < (t.arrowKeySeek .right (Mods.mk false true)).playhead)) ∧
      ∀ s ∈ t.coarseTimeSnapsList, t.accurate_playhead < s →
        (t.arrowKeySeek .right (Mods.mk false true)).playhead ≤ s) ∧
    (((t.arrowKeySeek .left (Mods.mk false true)).playhead = 0 ∨
        ((t.arrowKeySeek .left (Mods.mk false true)).playhead ∈ t.coarseTimeSnapsList ∧
          (t.arrowKeySeek .left (Mods.mk false true)).playhead < t.accurate_playhead)) ∧
      ∀ s ∈ t.coarseTimeSnapsList, s < t.accurate_playhead →
        s ≤ (t.arrowKeySeek .left (Mods.mk false true)).playhead) := by
  have hrn : (t.arrowKeySeek .right (Mods.mk false false)).playhead =
      foldNext t.fineTimeSnapsList t.accurate_playhead := rfl
  have hln : (t.arrowKeySeek .left (Mods.mk false false)).playhead =
      foldPrev t.fineTimeSnapsList t.accurate_playhead := rfl
  have hrc : (t.arrowKeySeek .right (Mods.mk false true)).playhead =
      foldNext t.coarseTimeSnapsList t.accurate_playhead := rfl
  have hlc : (t.arrowKeySeek .left (Mods.mk false true)).playhead =
      foldPrev t.coarseTimeSnapsList t.accurate_playhead := rfl
  refine ⟨⟨rfl, ?_⟩, ?_, ?_, ?_, ?_⟩
  · show t.accurate_playhead + (-1) = t.accurate_playhead - 1
    ring
  · rw [hrn]; exact foldNext_spec _ _
  · rw [hln]; exact foldPrev_spec _ _
  · rw [hrc]; exact foldNext_spec _ _
  · rw [hlc]; exact foldPrev_spec _ _

/-- A two-second clock ruler element (markings at 0, 20 and 40). -/
def exClock : Element :=
  { eid := 30, kind := .timeClock, start := 0, rawLen := 2 }

/-- A timeline with one clock ruler of two seconds (fine snaps at 0, 20
and 40) and the accurate playhead at 10, for the C8 witness. -/
def exT8 : Timeline :=
  { scale := 1, rows := [{ kind := .timeRow, elements := [exClock] }],
    playhead := 10, accurate_playhead := 10 }

theorem exT8_fine_snaps : exT8.fineTimeSnapsList = [0, 0, 20, 40] := by
  simp [exT8, exClock, Timeline.fineTimeSnapsList, timeRowSnaps, Element.markings,
    clockMarkings, PIXELS_PER_SECOND, List.range_succ]
  norm_num

/-- Witness for the amended C8 theorem: at `exT8`, 20 is a fine snap above
the accurate playhead, bounding the Right-seek result, and Shift+Right
lands at exactly `accurate_playhead + 1`. -/
theorem arrow_key_seek_amended_witness :
    ((20 : ℚ) ∈ exT8.fineTimeSnapsList ∧ exT8.accurate_playhead < 20) ∧
      (exT8.arrowKeySeek .right (Mods.mk false false)).playhead ≤ 20 ∧
      (exT8.arrowKeySeek .right (Mods.mk true false)).playhead =
        exT8.accurate_playhead + 1 := by
  have hmem : (20 : ℚ) ∈ exT8.fineTimeSnapsList := by
    rw [exT8_fine_snaps]
    norm_num
  have hlt : exT8.accurate_playhead < (20 : ℚ) := by norm_num [exT8]
  exact ⟨⟨hmem, hlt⟩,
    ((arrow_key_seek_amended exT8).2.1).2 20 hmem hlt,
    ((arrow_key_seek_amended exT8).1).1⟩

/-! ### C4 -/

/-- The playing predicate of the claim (and of the source condition
`element.start <= playhead < element.start + element.length`). -/
def playsAt (ph : ℚ) (e : Element) : Prop :=
  (e.start : ℚ) ≤ ph ∧ ph < (e.start : ℚ) + (e.get_length : ℚ)

instance (ph : ℚ) (e : Element) : Decidable (playsAt ph e) := by
  unfold playsAt; infer_instance

theorem rowScan_cons (ph : ℚ) (a : Element) (l : List Element) :
    rowScan ph (a :: l) =
      if ph < (a.start : ℚ) then ([], some a)
      else
        (if (a.start : ℚ) ≤ ph ∧ ph < (a.start : ℚ) + (a.get_length : ℚ) then
            a :: (rowScan ph l).1
          else (rowScan ph l).1, (rowScan ph l).2) := rfl

theorem rowScan_fst_mem (ph : ℚ) (l : List Element)
    (hs : l.Pairwise fun a b => a.start ≤ b.start) (e : Element) :
    e ∈ (rowScan ph l).1 ↔ e ∈ l ∧ playsAt ph e := by
  induction l with
  | nil => simp [rowScan]
  | cons a l ih =>
      rw [List.pairwise_cons] at hs
      rw [rowScan_cons]
      by_cases hlt : ph < (a.start : ℚ)
      · rw [if_pos hlt]
        simp only [List.not_mem_nil, false_iff]
        rintro ⟨hmem, hp1, _⟩
        rcases List.mem_cons.1 hmem with rfl | hmem
        · exact absurd hp1 (not_le.2 hlt)
        · have hax : (a.start : ℚ) ≤ (e.start : ℚ) := by exact_mod_cast hs.1 e hmem
          exact absurd (le_trans hax hp1) (not_le.2 hlt)
      · rw [if_neg hlt]
        dsimp only
        by_cases hp : (a.start : ℚ) ≤ ph ∧ ph < (a.start : ℚ) + (a.get_length : ℚ)
        · rw [if_pos hp]
          simp only [List.mem_cons, ih hs.2]
          unfold playsAt
          constructor
          · rintro (rfl | ⟨hm, hq⟩)
            · exact ⟨Or.inl rfl, hp⟩
            · exact ⟨Or.inr hm, hq⟩
          · rintro ⟨rfl | hm, hq⟩
            · exact Or.inl rfl
            · exact Or.inr ⟨hm, hq⟩
        · rw [if_neg hp]
          rw [ih hs.2]
          unfold playsAt
          constructor
          · rintro ⟨hm, hq⟩
            exact ⟨List.mem_cons_of_mem _ hm, hq⟩
          · rintro ⟨hm, hq⟩
            rcases List.mem_cons.1 hm with rfl | hm
            · exact absurd hq hp
            · exact ⟨hm, hq⟩

theorem rowScan_snd_eq (ph : ℚ) (l : List Element) :
    (rowScan ph l).2 = l.find? fun e => decide (ph < (e.start : ℚ)) := by
  induction l with
  | nil => rfl
  | cons a l ih =>
      rw [rowScan_cons]
      by_cases hlt : ph < (a.start : ℚ)
      · rw [if_pos hlt, List.find?_cons_of_pos _ (by simpa using hlt)]
      · rw [if_neg hlt]
        dsimp only
        rw [List.find?_cons_of_neg _ (by simpa using hlt)]
        exact ih

theorem find?_start_min (ph : ℚ) (l : List Element)
    (hs : l.Pairwise fun a b => a.start ≤ b.start) (e : Element)
    (h : l.find? (fun x => decide (ph < (x.start : ℚ))) = some e) :
    e ∈ l ∧ ph < (e.start : ℚ) ∧
      ∀ x ∈ l, ph < (x.start : ℚ) → e.start ≤ x.start := by
  induction l with
  | nil => simp at h
  | cons a l ih =>
      rw [List.pairwise_cons] at hs
      by_cases hlt : ph < (a.start : ℚ)
      · rw [List.find?_cons_of_pos _ (by simpa using hlt)] at h
        obtain rfl : a = e := by simpa using h
        refine ⟨by simp, hlt, ?_⟩
        intro x hx _
        rcases List.mem_cons.1 hx with rfl | hx
        · exact le_refl _
        · exact hs.1 x hx
      · rw [List.find?_cons_of_neg _ (by simpa using hlt)] at h
        obtain ⟨hm, hq, hmin⟩ := ih hs.2 h
        refine ⟨List.mem_cons_of_mem _ hm, hq, ?_⟩
        intro x hx hxq
        rcases List.mem_cons.1 hx with rfl | hx
        · exact absurd hxq hlt
        · exact hmin x hx hxq

theorem newPlaying_mem (t : Timeline)
    (hsort : ∀ r ∈ t.rows, r.elements.Pairwise fun a b => a.start ≤ b.start) (e : Element) :
    e ∈ t.newPlaying ↔ (∃ r ∈ t.rows, e ∈ r.elements) ∧ playsAt t.playhead e := by
  unfold Timeline.newPlaying
  rw [List.mem_flatMap]
  constructor
  · rintro ⟨r, hr, he⟩
    have h := (rowScan_fst_mem _ _ (hsort r hr) e).1 he
    exact ⟨⟨r, hr, h.1⟩, h.2⟩
  · rintro ⟨⟨r, hr, he⟩, hp⟩
    exact ⟨r, hr, (rowScan_fst_mem _ _ (hsort r hr) e).2 ⟨he, hp⟩⟩

theorem newNext_mem (t : Timeline) (e : Element) :
    e ∈ t.newNext ↔ ∃ r ∈ t.rows, (rowScan t.playhead r.elements).2 = some e := by
  unfold Timeline.newNext
  rw [List.mem_filterMap]

/-- C4: on every playhead change, `updatePlayhead` makes the playing set
exactly the elements with `start <= playhead < start + length` (given the
per-row start-ordering invariant), the next set exactly one element per
row — the first, hence start-least, element with `start > playhead`, when
one exists — and fires `exit` exactly on elements leaving the playing set,
`enter` exactly on elements entering it, and `enterNextInRow` exactly on
elements newly becoming next in their row (set membership by object
identity). -/
theorem update_playhead_characterization (t : Timeline)
    (hsort : ∀ r ∈ t.rows, r.elements.Pairwise fun a b => a.start ≤ b.start) :
    (∀ e, e ∈ (t.updatePlayhead).1.playing_elements ↔
        (∃ r ∈ t.rows, e ∈ r.elements) ∧ playsAt t.playhead e) ∧
    (∀ e, e ∈ (t.updatePlayhead).1.next_elements ↔
        ∃ r ∈ t.rows, (rowScan t.playhead r.elements).2 = some e) ∧
    (∀ r ∈ t.rows,
        (∀ e, (rowScan t.playhead r.elements).2 = some e →
          e ∈ r.elements ∧ t.playhead < (e.start : ℚ) ∧
            ∀ x ∈ r.elements, t.playhead < (x.start : ℚ) → e.start ≤ x.start) ∧
        ((rowScan t.playhead r.elements).2 = none ↔
          ∀ x ∈ r.elements, ¬ t.playhead < (x.start : ℚ))) ∧
    (∀ e, e ∈ (t.updatePlayhead).2.exits ↔
        e ∈ t.playing_elements ∧
          ¬ ∃ x, (∃ r ∈ t.rows, x ∈ r.elements) ∧ x.eid = e.eid ∧ playsAt t.playhead x) ∧
    (∀ e, e ∈ (t.updatePlayhead).2.enters ↔
        ((∃ r ∈ t.rows, e ∈ r.elements) ∧ playsAt t.playhead e) ∧
          ¬ ∃ x ∈ t.playing_elements, x.eid = e.eid) ∧
    (∀ e, e ∈ (t.updatePlayhead).2.enterNexts ↔
        (∃ r ∈ t.rows, (rowScan t.playhead r.elements).2 = some e) ∧
          ¬ ∃ x ∈ t.next_elements, x.eid = e.eid) := by
  have hpl : (t.updatePlayhead).1.playing_elements = t.newPlaying := rfl
  have hnx : (t.updatePlayhead).1.next_elements = t.newNext := rfl
  refine ⟨?_, ?_, ?_, ?_, ?_, ?_⟩
  · intro e
    rw [hpl]
    exact newPlaying_mem t hsort e
  · intro e
    rw [hnx]
    exact newNext_mem t e
  · intro r hr
    constructor
    · intro e he
      rw [rowScan_snd_eq] at he
      exact find?_start_min _ _ (hsort r hr) e he
    · rw [rowScan_snd_eq, List.find?_eq_none]
      constructor
      · intro h x hx hq
        exact absurd (by simpa using hq) (by simpa using h x hx)
      · intro h x hx
        simpa using h x hx
  · intro e
    have hex : (t.updatePlayhead).2.exits =
        t.playing_elements.filter fun e => !(t.newPlaying.any fun x => x.eid = e.eid) := rfl
    rw [hex, List.mem_filter]
    simp only [Bool.not_eq_true', List.any_eq_false, ne_eq, decide_eq_false_iff_not,
      decide_eq_true_eq]
    constructor
    · rintro ⟨hm, hno⟩
      refine ⟨hm, ?_⟩
      rintro ⟨x, hxr, hxe, hxp⟩
      exact hno x ((newPlaying_mem t hsort x).2 ⟨hxr, hxp⟩) hxe
    · rintro ⟨hm, hno⟩
      refine ⟨hm, ?_⟩
      intro x hx hxe
      have h := (newPlaying_mem t hsort x).1 hx
      exact hno ⟨x, h.1, hxe, h.2⟩
  · intro e
    have hen : (t.updatePlayhead).2.enters =
        t.newPlaying.filter fun e => !(t.playing_elements.any fun x => x.eid = e.eid) := rfl
    rw [hen, List.mem_filter]
    simp only [Bool.not_eq_true', List.any_eq_false, ne_eq, decide_eq_false_iff_not,
      decide_eq_true_eq]
    rw [newPlaying_mem t hsort e]
    constructor
    · rintro ⟨hm, hno⟩
      exact ⟨hm, fun ⟨x, hx, hxe⟩ => hno x hx hxe⟩
    · rintro ⟨hm, hno⟩
      exact ⟨hm, fun x hx hxe => hno ⟨x, hx, hxe⟩⟩
  · intro e
    have hen : (t.updatePlayhead).2.enterNexts =
        t.newNext.filter fun e => !(t.next_elements.any fun x => x.eid = e.eid) := rfl
    rw [hen, List.mem_filter]
    simp only [Bool.not_eq_true', List.any_eq_false, ne_eq, decide_eq_false_iff_not,
      decide_eq_true_eq]
    rw [newNext_mem t e]
    constructor
    · rintro ⟨hm, hno⟩
      exact ⟨hm, fun ⟨x, hx, hxe⟩ => hno x hx hxe⟩
    · rintro ⟨hm, hno⟩
      exact ⟨hm, fun x hx hxe => hno ⟨x, hx, hxe⟩⟩

/-- The two sorted lighting cues of the C4 witness: `[0, 10)` and
`[30, 35)`, with the playhead at 5. -/
def exPlay1 : Element :=
  { eid := 40, kind := .lightingCue, start := 0, rawLen := 10 }

def exPlay2 : Element :=
  { eid := 41, kind := .lightingCue, start := 30, rawLen := 5 }

def exT4 : Timeline :=
  { scale := 1, rows := [{ kind := .lightingRow, elements := [exPlay1, exPlay2] }],
    playhead := 5, accurate_playhead := 5 }

/-- Witness for C4 at `exT4`: the ordering hypothesis holds and the
playing-set characterization instance follows by applying the theorem. -/
theorem update_playhead_characterization_witness :
    (∀ r ∈ exT4.rows, r.elements.Pairwise fun a b => a.start ≤ b.start) ∧
      (exPlay1 ∈ (exT4.updatePlayhead).1.playing_elements ↔
        (∃ r ∈ exT4.rows, exPlay1 ∈ r.elements) ∧ playsAt exT4.playhead exPlay1) :=
  ⟨by decide,
    (update_playhead_characterization exT4 (by decide)).1 exPlay1⟩

/-! ### C6 -/

/-- The playhead value after `n` ticks of the sweep started at 0:
`accurate_playhead = 4n/5` (40 ms at 20 px/s) truncates to `⌊4n/5⌋`. -/
def fQ (n : ℕ) : ℤ := (4 * (n : ℤ)) / 5

/-- A timeline at the start of a playback sweep: playhead at 0, empty
playing/next sets. -/
def sweepStart (rs : List Row) : Timeline :=
  { scale := 1, rows := rs }

/-- The playing elements of a row list at a playhead (the collection
accumulated by `updatePlayhead`). -/
def rowsPlaying (rs : List Row) (ph : ℚ) : List Element :=
  rs.flatMap fun r => (rowScan ph r.elements).1

/-- The number of occurrences of identity `i` in an element list. -/
def eidCount (l : List Element) (i : ℕ) : ℕ :=
  l.countP fun x => decide (x.eid = i)

/-- Total number of `enter()` calls delivered to identity `i` during the
first `N` ticks of the sweep. -/
def enterCount (rs : List Row) (i : ℕ) : ℕ → ℕ
  | 0 => 0
  | n + 1 => enterCount rs i n +
      eidCount ((runTicks (sweepStart rs) n).playTimerTick).2.enters i

/-- Total number of `exit()` calls delivered to identity `i` during the
first `N` ticks of the sweep. -/
def exitCount (rs : List Row) (i : ℕ) : ℕ → ℕ
  | 0 => 0
  | n + 1 => exitCount rs i n +
      eidCount ((runTicks (sweepStart rs) n).playTimerTick).2.exits i

theorem newPlaying_eq_rowsPlaying (t : Timeline) :
    t.newPlaying = rowsPlaying t.rows t.playhead := rfl

theorem fQ_zero : fQ 0 = 0 := rfl

theorem fQ_mono {n m : ℕ} (h : n ≤ m) : fQ n ≤ fQ m := by
  unfold fQ
  omega

theorem fQ_step (n : ℕ) : fQ (n + 1) ≤ fQ n + 1 := by
  unfold fQ
  omega

theorem fQ_one : fQ 1 = 0 := rfl

theorem truncQ_step (n : ℕ) :
    truncQ ((4 * (n : ℚ)) / 5 + TIMER_INTERVAL * PIXELS_PER_SECOND / 1000) = fQ (n + 1) := by
  have h : (4 * (n : ℚ)) / 5 + TIMER_INTERVAL * PIXELS_PER_SECOND / 1000 =
      ((4 * ((n : ℤ) + 1) : ℤ) : ℚ) / ((5 : ℕ) : ℚ) := by
    norm_num [TIMER_INTERVAL, PIXELS_PER_SECOND]
    ring
  rw [h, truncQ_of_nonneg (by positivity), Rat.floor_intCast_div_natCast]
  unfold fQ
  omega

theorem tick_rows (t : Timeline) : (t.playTimerTick).1.rows = t.rows := rfl

theorem tick_acc (t : Timeline) :
    (t.playTimerTick).1.accurate_playhead =
      t.accurate_playhead + TIMER_INTERVAL * PIXELS_PER_SECOND / 1000 := rfl

theorem tick_playing (t : Timeline) :
    (t.playTimerTick).1.playing_elements =
      rowsPlaying t.rows
        ((truncQ (t.accurate_playhead + TIMER_INTERVAL * PIXELS_PER_SECOND / 1000) : ℤ) : ℚ) := rfl

theorem tick_enters (t : Timeline) :
    (t.playTimerTick).2.enters =
      (rowsPlaying t.rows
          ((truncQ (t.accurate_playhead + TIMER_INTERVAL * PIXELS_PER_SECOND / 1000) : ℤ) : ℚ)).filter
        fun x => !(t.playing_elements.any fun y => y.eid = x.eid) := rfl

theorem tick_exits (t : Timeline) :
    (t.playTimerTick).2.exits =
      t.playing_elements.filter fun x =>
        !((rowsPlaying t.rows
            ((truncQ (t.accurate_playhead + TIMER_INTERVAL * PIXELS_PER_SECOND / 1000) : ℤ) : ℚ)).any
          fun y => y.eid = x.eid) := rfl

/-- State of the sweep after `n` ticks: the rows never change, the
accurate playhead is `4n/5`, and (after at least one tick) the stored
playing set is exactly the row scan at playhead `fQ n`. -/
theorem runTicks_state (rs : List Row) (n : ℕ) :
    (runTicks (sweepStart rs) n).rows = rs ∧
      (runTicks (sweepStart rs) n).accurate_playhead = (4 * (n : ℚ)) / 5 ∧
      (runTicks (sweepStart rs) n).playing_elements =
        (if n = 0 then [] else rowsPlaying rs ((fQ n : ℤ) : ℚ)) := by
  induction n with
  | zero =>
      refine ⟨rfl, by norm_num [runTicks, sweepStart], rfl⟩
  | succ n ih =>
      obtain ⟨ihr, iha, ihp⟩ := ih
      refine ⟨?_, ?_, ?_⟩
      · rw [runTicks, tick_rows, ihr]
      · rw [runTicks, tick_acc, iha]
        norm_num [TIMER_INTERVAL, PIXELS_PER_SECOND]
        ring
      · rw [runTicks, tick_playing, ihr, iha, truncQ_step]
        simp

/-- Per-tick playhead: after the `(n+1)`-st tick the playhead is `fQ (n+1)`. -/
theorem runTicks_playhead (rs : List Row) (n : ℕ) :
    (runTicks (sweepStart rs) (n + 1)).playhead = ((fQ (n + 1) : ℤ) : ℚ) := by
  have h : (runTicks (sweepStart rs) (n + 1)).playhead =
      ((truncQ ((runTicks (sweepStart rs) n).accurate_playhead +
        TIMER_INTERVAL * PIXELS_PER_SECOND / 1000) : ℤ) : ℚ) := rfl
  rw [h, (runTicks_state rs n).2.1, truncQ_step]

theorem rowScan_fst_sublist (ph : ℚ) (l : List Element) :
    (rowScan ph l).1.Sublist l := by
  induction l with
  | nil => exact List.Sublist.refl _
  | cons a l ih =>
      rw [rowScan_cons]
      by_cases hlt : ph < (a.start : ℚ)
      · rw [if_pos hlt]
        exact List.nil_sublist _
      · rw [if_neg hlt]
        dsimp only
        split
        · exact List.Sublist.cons₂ a ih
        · exact List.Sublist.cons a ih

theorem flatMap_sublist {α β : Type} (l : List α) (f g : α → List β)
    (h : ∀ a ∈ l, (f a).Sublist (g a)) : (l.flatMap f).Sublist (l.flatMap g) := by
  induction l with
  | nil => exact List.Sublist.refl _
  | cons a l ih =>
      rw [List.flatMap_cons, List.flatMap_cons]
      exact List.Sublist.append (h a (by simp)) (ih fun a ha => h a (by simp [ha]))

theorem rowsPlaying_sublist (rs : List Row) (ph : ℚ) :
    (rowsPlaying rs ph).Sublist (rs.flatMap Row.elements) :=
  flatMap_sublist rs _ _ fun r _ => rowScan_fst_sublist ph r.elements

theorem rowsPlaying_mem (rs : List Row) (ph : ℚ)
    (hsort : ∀ r ∈ rs, r.elements.Pairwise fun a b => a.start ≤ b.start) (e : Element) :
    e ∈ rowsPlaying rs ph ↔ (∃ r ∈ rs, e ∈ r.elements) ∧ playsAt ph e := by
  unfold rowsPlaying
  rw [List.mem_flatMap]
  constructor
  · rintro ⟨r, hr, he⟩
    have h := (rowScan_fst_mem _ _ (hsort r hr) e).1 he
    exact ⟨⟨r, hr, h.1⟩, h.2⟩
  · rintro ⟨⟨r, hr, he⟩, hp⟩
    exact ⟨r, hr, (rowScan_fst_mem _ _ (hsort r hr) e).2 ⟨he, hp⟩⟩

theorem eidCount_le_one (l : List Element) (hn : (l.map Element.eid).Nodup) (i : ℕ) :
    eidCount l i ≤ 1 := by
  induction l with
  | nil => exact Nat.zero_le 1
  | cons a l ih =>
      rw [List.map_cons, List.nodup_cons] at hn
      unfold eidCount
      rw [List.countP_cons]
      by_cases ha : a.eid = i
      · have hz : l.countP (fun x => decide (x.eid = i)) = 0 := by
          rw [List.countP_eq_zero]
          intro x hx
          simp only [decide_eq_true_eq]
          intro hxe
          apply hn.1
          have hxa : x.eid = a.eid := by rw [hxe, ha]
          rw [← hxa]
          exact List.mem_map_of_mem _ hx
        rw [hz]
        simp [ha]
      · have := ih hn.2
        unfold eidCount at this
        simp [ha]
        omega

theorem eidCount_pos_iff (l : List Element) (i : ℕ) :
    0 < eidCount l i ↔ ∃ y ∈ l, y.eid = i := by
  unfold eidCount
  rw [List.countP_pos_iff]
  simp

theorem eidCount_rowsPlaying (rs : List Row) (ph : ℚ) (e : Element)
    (hsort : ∀ r ∈ rs, r.elements.Pairwise fun a b => a.start ≤ b.start)
    (hnodup : ((rs.flatMap Row.elements).map Element.eid).Nodup)
    (hmem : ∃ r ∈ rs, e ∈ r.elements) :
    eidCount (rowsPlaying rs ph) e.eid = if playsAt ph e then 1 else 0 := by
  have hsub := rowsPlaying_sublist rs ph
  have hle : eidCount (rowsPlaying rs ph) e.eid ≤ 1 := by
    refine le_trans ?_ (eidCount_le_one _ hnodup e.eid)
    exact hsub.countP_le _
  have hinj := List.inj_on_of_nodup_map hnodup
  obtain ⟨r0, hr0, he0⟩ := hmem
  have heall : e ∈ rs.flatMap Row.elements := List.mem_flatMap.2 ⟨r0, hr0, he0⟩
  by_cases hp : playsAt ph e
  · rw [if_pos hp]
    have hmem2 : e ∈ rowsPlaying rs ph :=
      (rowsPlaying_mem rs ph hsort e).2 ⟨⟨r0, hr0, he0⟩, hp⟩
    have hpos : 0 < eidCount (rowsPlaying rs ph) e.eid :=
      (eidCount_pos_iff _ _).2 ⟨e, hmem2, rfl⟩
    omega
  · rw [if_neg hp]
    unfold eidCount
    rw [List.countP_eq_zero]
    intro x hx
    simp only [decide_eq_true_eq]
    intro hxe
    have hxall : x ∈ rs.flatMap Row.elements := hsub.subset hx
    have hxe2 : x = e := hinj hxall heall hxe
    subst hxe2
    exact hp ((rowsPlaying_mem rs ph hsort x).1 hx).2

theorem exists_eid_rowsPlaying (rs : List Row) (ph : ℚ) (e : Element)
    (hsort : ∀ r ∈ rs, r.elements.Pairwise fun a b => a.start ≤ b.start)
    (hnodup : ((rs.flatMap Row.elements).map Element.eid).Nodup)
    (hmem : ∃ r ∈ rs, e ∈ r.elements) :
    (∃ y ∈ rowsPlaying rs ph, y.eid = e.eid) ↔ playsAt ph e := by
  rw [← eidCount_pos_iff, eidCount_rowsPlaying rs ph e hsort hnodup hmem]
  by_cases hp : playsAt ph e <;> simp [hp]

theorem countP_and_of_imp {α : Type} (l : List α) (p q : α → Bool)
    (h : ∀ a ∈ l, p a = true → q a = true) :
    (l.countP fun a => p a && q a) = l.countP p := by
  induction l with
  | nil => rfl
  | cons a l ih =>
      rw [List.countP_cons, List.countP_cons,
        ih fun a ha => h a (by simp [ha])]
      by_cases hp : p a = true
      · rw [hp, h a (by simp) hp]
        simp
      · simp only [Bool.not_eq_true] at hp
        rw [hp]
        simp

/-- Counting survivors of the identity-difference filter: when `B` holds
the identity, everything with that identity is filtered out; otherwise the
count in `A` is preserved. -/
theorem eidCount_filter_not_any (A B : List Element) (i : ℕ) :
    eidCount (A.filter fun x => !(B.any fun y => y.eid = x.eid)) i =
      if ∃ y ∈ B, y.eid = i then 0 else eidCount A i := by
  by_cases h : ∃ y ∈ B, y.eid = i
  · rw [if_pos h]
    unfold eidCount
    rw [List.countP_eq_zero]
    intro a ha
    rw [List.mem_filter] at ha
    simp only [decide_eq_true_eq]
    intro hai
    obtain ⟨y, hy, hyi⟩ := h
    have : B.any (fun y => y.eid = a.eid) = true :=
      List.any_eq_true.2 ⟨y, hy, by simp [hyi, hai]⟩
    rw [this] at ha
    simp at ha
  · rw [if_neg h]
    unfold eidCount
    rw [List.countP_filter]
    apply countP_and_of_imp
    intro a _ ha
    simp only [decide_eq_true_eq] at ha
    simp only [Bool.not_eq_true']
    rw [List.any_eq_false]
    intro y hy
    simp only [decide_eq_true_eq]
    intro hye
    exact h ⟨y, hy, by rw [hye, ha]⟩

/-- The playing condition at the integer playhead `fQ j`, phrased over
`ℤ`. -/
def hitsAt (e : Element) (j : ℕ) : Prop :=
  e.start ≤ fQ j ∧ fQ j < e.start + e.get_length

instance (e : Element) (j : ℕ) : Decidable (hitsAt e j) := by
  unfold hitsAt; infer_instance

theorem playsAt_fQ (e : Element) (j : ℕ) :
    playsAt ((fQ j : ℤ) : ℚ) e ↔ hitsAt e j := by
  unfold playsAt hitsAt
  constructor
  · rintro ⟨h1, h2⟩
    exact ⟨by exact_mod_cast h1, by exact_mod_cast h2⟩
  · rintro ⟨h1, h2⟩
    exact ⟨by exact_mod_cast h1, by exact_mod_cast h2⟩

theorem hitsAt_interval (e : Element) {j k l : ℕ} (hjk : j ≤ k) (hkl : k ≤ l)
    (hj : hitsAt e j) (hl : hitsAt e l) : hitsAt e k := by
  have h1 := fQ_mono hjk
  have h2 := fQ_mono hkl
  unfold hitsAt at *
  omega

/-- `fQ` increments by at most one per tick and therefore lands exactly on
every admissible integer: any `B ≥ 0` with `B + 1 ≤ fQ N` is attained at
some tick in `[1, N]`. -/
theorem fQ_hits (B : ℤ) (hB : 0 ≤ B) (N : ℕ) (hN : B + 1 ≤ fQ N) :
    ∃ j, 1 ≤ j ∧ j ≤ N ∧ fQ j = B := by
  have hex : ∃ j, B ≤ fQ j := ⟨N, by omega⟩
  have ha : B ≤ fQ (Nat.find hex) := Nat.find_spec hex
  have haN : Nat.find hex ≤ N := Nat.find_le (by omega)
  by_cases ha0 : Nat.find hex = 0
  · have hB0 : B = 0 := by
      rw [ha0] at ha
      have h0 : fQ 0 = 0 := rfl
      omega
    have hN0 : N ≠ 0 := by
      intro h0
      rw [h0] at hN
      have : fQ 0 = 0 := rfl
      omega
    exact ⟨1, le_refl 1, by omega, by rw [fQ_one, hB0]⟩
  · have ham : ¬ B ≤ fQ (Nat.find hex - 1) := Nat.find_min hex (by omega)
    have hstep := fQ_step (Nat.find hex - 1)
    rw [Nat.sub_add_cancel (by omega)] at hstep
    exact ⟨Nat.find hex, by omega, haN, by omega⟩

/-- The `enter()` deliveries to element `e` at tick `n + 1`: exactly one
when `e` is playing at the new playhead but was not playing at the old
one, else none. -/
theorem tick_enter_count (rs : List Row) (e : Element) (n : ℕ)
    (hsort : ∀ r ∈ rs, r.elements.Pairwise fun a b => a.start ≤ b.start)
    (hnodup : ((rs.flatMap Row.elements).map Element.eid).Nodup)
    (hmem : ∃ r ∈ rs, e ∈ r.elements) :
    eidCount ((runTicks (sweepStart rs) n).playTimerTick).2.enters e.eid =
      if hitsAt e (n + 1) ∧ ¬(n ≠ 0 ∧ hitsAt e n) then 1 else 0 := by
  obtain ⟨hr, ha, hp⟩ := runTicks_state rs n
  by_cases hn0 : n = 0
  · subst hn0
    rw [tick_enters, hr, ha, truncQ_step, hp, if_pos rfl, eidCount_filter_not_any,
      if_neg (by simp), eidCount_rowsPlaying rs _ e hsort hnodup hmem]
    by_cases hq : hitsAt e 1
    · rw [if_pos ((playsAt_fQ e 1).2 hq), if_pos ⟨hq, by simp⟩]
    · rw [if_neg (fun c => hq ((playsAt_fQ e 1).1 c)), if_neg (by tauto)]
  · rw [tick_enters, hr, ha, truncQ_step, hp, if_neg hn0, eidCount_filter_not_any]
    simp only [show (∃ y ∈ rowsPlaying rs ((fQ n : ℤ) : ℚ), y.eid = e.eid) ↔ hitsAt e n from
      (exists_eid_rowsPlaying rs _ e hsort hnodup hmem).trans (playsAt_fQ e n)]
    by_cases hq : hitsAt e n
    · rw [if_pos hq, if_neg (by tauto)]
    · rw [if_neg hq, eidCount_rowsPlaying rs _ e hsort hnodup hmem]
      by_cases hq1 : hitsAt e (n + 1)
      · rw [if_pos ((playsAt_fQ e (n+1)).2 hq1), if_pos ⟨hq1, by tauto⟩]
      · rw [if_neg (fun c => hq1 ((playsAt_fQ e (n+1)).1 c)), if_neg (by tauto)]

/-- The `exit()` deliveries to element `e` at tick `n + 1`: exactly one
when `e` was playing at the old playhead but is not at the new one, else
none. -/
theorem tick_exit_count (rs : List Row) (e : Element) (n : ℕ)
    (hsort : ∀ r ∈ rs, r.elements.Pairwise fun a b => a.start ≤ b.start)
    (hnodup : ((rs.flatMap Row.elements).map Element.eid).Nodup)
    (hmem : ∃ r ∈ rs, e ∈ r.elements) :
    eidCount ((runTicks (sweepStart rs) n).playTimerTick).2.exits e.eid =
      if (n ≠ 0 ∧ hitsAt e n) ∧ ¬ hitsAt e (n + 1) then 1 else 0 := by
  obtain ⟨hr, ha, hp⟩ := runTicks_state rs n
  rw [tick_exits, hr, ha, truncQ_step, hp, eidCount_filter_not_any]
  simp only [show (∃ y ∈ rowsPlaying rs ((fQ (n + 1) : ℤ) : ℚ), y.eid = e.eid) ↔
      hitsAt e (n + 1) from
    (exists_eid_rowsPlaying rs _ e hsort hnodup hmem).trans (playsAt_fQ e (n + 1))]
  by_cases hq1 : hitsAt e (n + 1)
  · rw [if_pos hq1, if_neg (by tauto)]
  · rw [if_neg hq1]
    by_cases hn0 : n = 0
    · subst hn0
      rw [if_pos rfl, if_neg (by tauto)]
      rfl
    · rw [if_neg hn0, eidCount_rowsPlaying rs _ e hsort hnodup hmem]
      by_cases hq : hitsAt e n
      · rw [if_pos ((playsAt_fQ e n).2 hq), if_pos ⟨⟨hn0, hq⟩, hq1⟩]
      · rw [if_neg (fun c => hq ((playsAt_fQ e n).1 c)), if_neg (by tauto)]

theorem enterCount_eq_countP (rs : List Row) (e : Element) (N : ℕ)
    (hsort : ∀ r ∈ rs, r.elements.Pairwise fun a b => a.start ≤ b.start)
    (hnodup : ((rs.flatMap Row.elements).map Element.eid).Nodup)
    (hmem : ∃ r ∈ rs, e ∈ r.elements) :
    enterCount rs e.eid N = (List.range N).countP fun n =>
      decide (hitsAt e (n + 1) ∧ ¬(n ≠ 0 ∧ hitsAt e n)) := by
  induction N with
  | zero => rfl
  | succ N ih =>
      rw [enterCount, ih, List.range_succ, List.countP_append,
        tick_enter_count rs e N hsort hnodup hmem]
      have hsingle : List.countP
          (fun n => decide (hitsAt e (n + 1) ∧ ¬(n ≠ 0 ∧ hitsAt e n))) [N] =
          if hitsAt e (N + 1) ∧ ¬(N ≠ 0 ∧ hitsAt e N) then 1 else 0 := by
        rw [List.countP_cons, List.countP_nil]
        by_cases hq : hitsAt e (N + 1) ∧ ¬(N ≠ 0 ∧ hitsAt e N)
        · rw [if_pos hq]; simp [hq]
        · rw [if_neg hq, show decide (hitsAt e (N + 1) ∧ ¬(N ≠ 0 ∧ hitsAt e N)) = false from
            by simp only [decide_eq_false_iff_not]; exact hq]
          simp
      rw [hsingle]

theorem exitCount_eq_countP (rs : List Row) (e : Element) (N : ℕ)
    (hsort : ∀ r ∈ rs, r.elements.Pairwise fun a b => a.start ≤ b.start)
    (hnodup : ((rs.flatMap Row.elements).map Element.eid).Nodup)
    (hmem : ∃ r ∈ rs, e ∈ r.elements) :
    exitCount rs e.eid N = (List.range N).countP fun n =>
      decide ((n ≠ 0 ∧ hitsAt e n) ∧ ¬ hitsAt e (n + 1)) := by
  induction N with
  | zero => rfl
  | succ N ih =>
      rw [exitCount, ih, List.range_succ, List.countP_append,
        tick_exit_count rs e N hsort hnodup hmem]
      have hsingle : List.countP
          (fun n => decide ((n ≠ 0 ∧ hitsAt e n) ∧ ¬ hitsAt e (n + 1))) [N] =
          if (N ≠ 0 ∧ hitsAt e N) ∧ ¬ hitsAt e (N + 1) then 1 else 0 := by
        rw [List.countP_cons, List.countP_nil]
        by_cases hq : (N ≠ 0 ∧ hitsAt e N) ∧ ¬ hitsAt e (N + 1)
        · rw [if_pos hq]; simp [hq]
        · rw [if_neg hq, show decide ((N ≠ 0 ∧ hitsAt e N) ∧ ¬ hitsAt e (N + 1)) = false from
            by simp only [decide_eq_false_iff_not]; exact hq]
          simp
      rw [hsingle]

theorem countP_range_eq_one (N k : ℕ) (p : ℕ → Bool) (hk : k < N)
    (h : ∀ n, p n = true ↔ n = k) :
    (List.range N).countP p = 1 := by
  induction N with
  | zero => omega
  | succ N ih =>
      rw [List.range_succ, List.countP_append]
      by_cases hkN : k = N
      · have hz : (List.range N).countP p = 0 := by
          rw [List.countP_eq_zero]
          intro n hn
          rw [List.mem_range] at hn
          intro hp
          rw [h n] at hp
          omega
        rw [hz]
        have hp : p N = true := (h N).2 hkN.symm
        simp [hp, List.countP_cons]
      · rw [ih (by omega)]
        have hp : p N = false := by
          by_contra hc
          simp only [Bool.not_eq_false] at hc
          exact hkN ((h N).1 hc).symm
        simp [hp, List.countP_cons]

/-- C6: during a playback sweep started at 0 (ticks of 40 ms at 20 px/s)
that runs past an element's end, the element receives exactly one
`enter()` and exactly one `exit()`; and within a row, enters happen in
start order — whenever an element with a larger start receives its
`enter()` at some tick, an element with a smaller start already received
its own at an earlier tick. -/
theorem playback_sweep_enter_exit_once (rs : List Row) (e : Element) (N : ℕ)
    (hsort : ∀ r ∈ rs, r.elements.Pairwise fun a b => a.start ≤ b.start)
    (hnodup : ((rs.flatMap Row.elements).map Element.eid).Nodup)
    (hmem : ∃ r ∈ rs, e ∈ r.elements)
    (hstart : 0 ≤ e.start)
    (hlen : 1 ≤ e.get_length)
    (hN : e.start + e.get_length ≤ fQ N) :
    enterCount rs e.eid N = 1 ∧ exitCount rs e.eid N = 1 ∧
      (∀ e2 r, r ∈ rs → e ∈ r.elements → e2 ∈ r.elements → e.start < e2.start →
        ∀ n, 1 ≤ eidCount ((runTicks (sweepStart rs) n).playTimerTick).2.enters e2.eid →
          ∃ j, j < n ∧
            1 ≤ eidCount ((runTicks (sweepStart rs) j).playTimerTick).2.enters e.eid) := by
  have hhit : ∃ j, 1 ≤ j ∧ j ≤ N ∧ fQ j = e.start := fQ_hits e.start hstart N (by omega)
  have hexm : ∃ j, 1 ≤ j ∧ hitsAt e j := by
    obtain ⟨j, hj1, hjN, hjf⟩ := hhit
    exact ⟨j, hj1, by unfold hitsAt; omega⟩
  have hmspec : 1 ≤ Nat.find hexm ∧ hitsAt e (Nat.find hexm) := Nat.find_spec hexm
  have hmmin : ∀ j, 1 ≤ j → hitsAt e j → Nat.find hexm ≤ j := fun j h1 h2 =>
    Nat.find_le ⟨h1, h2⟩
  have hmN : Nat.find hexm ≤ N := by
    obtain ⟨j, hj1, hjN, hjf⟩ := hhit
    exact le_trans (hmmin j hj1 (by unfold hitsAt; omega)) hjN
  have hQN : ¬ hitsAt e N := by unfold hitsAt; omega
  have hedge : ∀ n : ℕ,
      (hitsAt e (n + 1) ∧ ¬(n ≠ 0 ∧ hitsAt e n)) ↔ n = Nat.find hexm - 1 := by
    intro n
    constructor
    · rintro ⟨h1, h2⟩
      have hm_le : Nat.find hexm ≤ n + 1 := hmmin (n + 1) (by omega) h1
      by_cases hc : Nat.find hexm ≤ n
      · exfalso
        have hQn : hitsAt e n := hitsAt_interval e hc (by omega) hmspec.2 h1
        exact h2 ⟨by omega, hQn⟩
      · omega
    · intro hn
      have hm1 : n + 1 = Nat.find hexm := by omega
      constructor
      · rw [hm1]
        exact hmspec.2
      · rintro ⟨hn0, hQn⟩
        have := hmmin n (by omega) hQn
        omega
  have hexb : ∃ j, Nat.find hexm ≤ j ∧ ¬ hitsAt e j := ⟨N, hmN, hQN⟩
  have hbspec : Nat.find hexm ≤ Nat.find hexb ∧ ¬ hitsAt e (Nat.find hexb) :=
    Nat.find_spec hexb
  have hbm : Nat.find hexm < Nat.find hexb := by
    rcases lt_or_eq_of_le hbspec.1 with h | h
    · exact h
    · exact absurd (h ▸ hmspec.2) hbspec.2
  have hbN : Nat.find hexb ≤ N := Nat.find_le ⟨hmN, hQN⟩
  have hQb1 : hitsAt e (Nat.find hexb - 1) := by
    by_contra hc
    exact Nat.find_min hexb (show Nat.find hexb - 1 < Nat.find hexb by omega)
      ⟨by omega, hc⟩
  have hxedge : ∀ n : ℕ,
      ((n ≠ 0 ∧ hitsAt e n) ∧ ¬ hitsAt e (n + 1)) ↔ n = Nat.find hexb - 1 := by
    intro n
    constructor
    · rintro ⟨⟨hn0, hQn⟩, h2⟩
      have hmn : Nat.find hexm ≤ n := hmmin n (by omega) hQn
      have hble : Nat.find hexb ≤ n + 1 := Nat.find_le ⟨by omega, h2⟩
      by_cases hc : Nat.find hexb ≤ n
      · exact absurd (hitsAt_interval e hbspec.1 hc hmspec.2 hQn) hbspec.2
      · omega
    · intro hn
      have hb1 : n + 1 = Nat.find hexb := by omega
      refine ⟨⟨by omega, ?_⟩, ?_⟩
      · rw [hn]
        exact hQb1
      · rw [hb1]
        exact hbspec.2
  refine ⟨?_, ?_, ?_⟩
  · rw [enterCount_eq_countP rs e N hsort hnodup hmem]
    refine countP_range_eq_one N (Nat.find hexm - 1) _ (by omega) ?_
    intro n
    rw [decide_eq_true_eq]
    exact hedge n
  · rw [exitCount_eq_countP rs e N hsort hnodup hmem]
    refine countP_range_eq_one N (Nat.find hexb - 1) _ (by omega) ?_
    intro n
    rw [decide_eq_true_eq]
    exact hxedge n
  · intro e2 r hr he1 he2 hlt n hcount
    rw [tick_enter_count rs e2 n hsort hnodup ⟨r, hr, he2⟩] at hcount
    have hq : hitsAt e2 (n + 1) ∧ ¬(n ≠ 0 ∧ hitsAt e2 n) := by
      by_contra hc
      rw [if_neg hc] at hcount
      omega
    have hf2 : e2.start ≤ fQ (n + 1) := hq.1.1
    obtain ⟨j0, hj01, hj0n, hj0f⟩ := fQ_hits e.start hstart (n + 1) (by omega)
    have hQj0 : hitsAt e j0 := by unfold hitsAt; omega
    have hmj0 : Nat.find hexm ≤ j0 := hmmin j0 hj01 hQj0
    have hmn : Nat.find hexm ≤ n := by
      by_contra hc
      have hj0e : j0 = n + 1 := by omega
      rw [hj0e] at hj0f
      omega
    refine ⟨Nat.find hexm - 1, by omega, ?_⟩
    rw [tick_enter_count rs e (Nat.find hexm - 1) hsort hnodup hmem,
      if_pos ((hedge (Nat.find hexm - 1)).2 rfl)]

/-- The row list for the C6 witness: one lighting row holding the two
sorted cues `exPlay1` (`[0, 10)`) and `exPlay2` (`[30, 35)`). -/
def exSweepRows : List Row :=
  [{ kind := .lightingRow, elements := [exPlay1, exPlay2] }]

/-- Witness for C6: all sweep hypotheses hold for `exPlay1` over 50 ticks
(`fQ 50 = 40` passes its end at 10), and the conclusion follows by
applying the sweep theorem. -/
theorem playback_sweep_enter_exit_once_witness :
    ((∀ r ∈ exSweepRows, r.elements.Pairwise fun a b => a.start ≤ b.start) ∧
        ((exSweepRows.flatMap Row.elements).map Element.eid).Nodup ∧
        (∃ r ∈ exSweepRows, exPlay1 ∈ r.elements) ∧
        0 ≤ exPlay1.start ∧ 1 ≤ exPlay1.get_length ∧
        exPlay1.start + exPlay1.get_length ≤ fQ 50) ∧
      (enterCount exSweepRows exPlay1.eid 50 = 1 ∧
        exitCount exSweepRows exPlay1.eid 50 = 1 ∧
        (∀ e2 r, r ∈ exSweepRows → exPlay1 ∈ r.elements → e2 ∈ r.elements →
          exPlay1.start < e2.start →
          ∀ n, 1 ≤ eidCount ((runTicks (sweepStart exSweepRows) n).playTimerTick).2.enters
              e2.eid →
            ∃ j, j < n ∧
              1 ≤ eidCount ((runTicks (sweepStart exSweepRows) j).playTimerTick).2.enters
                exPlay1.eid)) :=
  ⟨⟨by decide, by decide, by decide, by decide, by decide, by decide⟩,
    playback_sweep_enter_exit_once exSweepRows exPlay1 50 (by decide) (by decide)
      (by decide) (by decide) (by decide) (by decide)⟩

end LiveCue
